import Mathlib

/-!
Verification of the level-editor data model (Utils/LevelEditor/data_models.py):
Room tile grids, the Level aggregate with its legacy layout and validation,
and the FloorLayout grid with undirected door connections, together with the
JSON export/import codec.  Python machine state (lists, insertion-ordered
dicts) is embedded as Lean lists and association lists; file I/O is embedded
as explicit document values and output strings.
-/

/-- Decimal digit characters of a natural number, most significant first,
matching the Python rendering str of a nonnegative int. -/
def natDigitChars (n : Nat) : List Char :=
  if h : n < 10 then [Char.ofNat (48 + n)]
  else natDigitChars (n / 10) ++ [Char.ofNat (48 + n % 10)]
  decreasing_by exact Nat.div_lt_self (Nat.lt_of_lt_of_le (by decide) (Nat.le_of_not_lt h)) (by decide)

/-- Python str of a nonnegative integer. -/
def pyNatStr (n : Nat) : String := ⟨natDigitChars n⟩

/-- Python str of an arbitrary integer. -/
def pyIntStr (i : Int) : String :=
  if i < 0 then "-" ++ pyNatStr i.natAbs else pyNatStr i.toNat

/-- Tile type constants from class TileType. -/
def TileType.EMPTY : Int := 0

def TileType.BLOCK : Int := 1

def TileType.PLATFORM : Int := 2

def TileType.SPAWN : Int := 8

def TileType.SEARCHABLE : Int := 9

/-- The exit descriptor object stored in a room exit slot; the editor only
ever stores an object with a single key type (value doorway), embedded here
as the value of that key. -/
structure ExitDoor where
  ty : String
deriving DecidableEq, Repr

/-- The exits dict of a room: fixed keys left and right, each either null or
an exit descriptor. -/
structure Exits where
  left : Option ExitDoor
  right : Option ExitDoor
deriving DecidableEq, Repr

/-- The theme dict of a room: three fixed color keys. -/
structure Theme where
  wall_color : String
  floor_color : String
  ceiling_color : String
deriving DecidableEq, Repr

/-- A room: id, total width/height (walls included) and the interior tile
matrix, plus exits and theme, exactly the fields of class Room. -/
structure Room where
  id : Int
  width : Int
  height : Int
  interior : List (List Int)
  exits : Exits
  theme : Theme
deriving DecidableEq, Repr

/-- Room construction (Room.__init__): interior built as height-2 rows of
width-2 Empty tiles (a Python range of a negative count is empty, matching
Int.toNat), exits both null, default theme. -/
def Room.init (room_id width height : Int) : Room :=
  { id := room_id, width := width, height := height,
    interior := List.replicate (height - 2).toNat
      (List.replicate (width - 2).toNat TileType.EMPTY),
    exits := { left := none, right := none },
    theme := { wall_color := "darkgray", floor_color := "gray", ceiling_color := "gray" } }

/-- Room.get_interior_width. -/
def Room.get_interior_width (r : Room) : Int := r.width - 2

/-- Room.get_interior_height. -/
def Room.get_interior_height (r : Room) : Int := r.height - 2

/-- Length of row 0 of the interior, 0 when there are no rows: the quantity
the Python code reads as len of interior[0] under a guard that ensures at
least one row exists. -/
def Room.row0len (r : Room) : Nat := (r.interior.headD []).length

/-- Room.resize: rebuild the interior at the new dimensions filled with
Empty, then copy the old tiles over the overlap rectangle, whose extent in
each axis is the min of the old extent and the new extent (the Python loops
write cell (x, y) of the new interior from the old interior exactly when
y is below both extents and x is below both row extents). -/
def Room.resize (r : Room) (new_width new_height : Int) : Room :=
  let old := r.interior
  let yCount : Nat := (min (old.length : Int) (new_height - 2)).toNat
  let xCount : Nat := (min ((old.headD []).length : Int) (new_width - 2)).toNat
  { r with
    width := new_width, height := new_height,
    interior := (List.range (new_height - 2).toNat).map (fun y =>
      (List.range (new_width - 2).toNat).map (fun x =>
        if y < yCount ∧ x < xCount then ((old.getD y []).getD x TileType.EMPTY)
        else TileType.EMPTY)) }

/-- Room.get_tile: bounds are checked against the row count and the length
of row 0 (short-circuit: row 0 is only consulted when at least one row
exists); in range returns the stored tile, out of range returns Empty. -/
def Room.get_tile (r : Room) (x y : Int) : Int :=
  if 0 ≤ y ∧ y < (r.interior.length : Int) ∧ 0 ≤ x ∧ x < (r.row0len : Int) then
    (r.interior.getD y.toNat []).getD x.toNat TileType.EMPTY
  else TileType.EMPTY

/-- Room.set_tile: same bounds check as get_tile; in range overwrites the
cell, out of range leaves the room unchanged. -/
def Room.set_tile (r : Room) (x y : Int) (tile_type : Int) : Room :=
  if 0 ≤ y ∧ y < (r.interior.length : Int) ∧ 0 ≤ x ∧ x < (r.row0len : Int) then
    { r with interior := (r.interior.set y.toNat
        ((r.interior.getD y.toNat []).set x.toNat tile_type)) }
  else r

/-- A legacy layout entry: room_id and sequential position. -/
structure LayoutEntry where
  room_id : Int
  position : Int
deriving DecidableEq, Repr

/-- A position in the floor-layout grid (class GridPosition); equality is
structural on row and col. -/
structure GridPos where
  row : Int
  col : Int
deriving DecidableEq, Repr

/-- A door connection between two grid positions (class RoomConnection). -/
structure RoomConnection where
  from_pos : GridPos
  to_pos : GridPos
  door_position : String
deriving DecidableEq, Repr

/-- The floor-layout grid: a Python dict from GridPosition to an optional
room id, embedded as an insertion-ordered association list with unique keys
in all states the editor constructs. -/
abbrev Grid := List (GridPos × Option Int)

/-- Dict lookup: the value stored under a key, if the key is present. -/
def gridFind : Grid → GridPos → Option (Option Int)
  | [], _ => none
  | (q, v) :: rest, p => if q = p then some v else gridFind rest p

/-- Python dict.get with default None: collapses a missing key and a stored
None to none. -/
def gridGet (g : Grid) (p : GridPos) : Option Int := (gridFind g p).getD none

/-- Python key-membership test. -/
def gridHas (g : Grid) (p : GridPos) : Bool := (gridFind g p).isSome

/-- Python dict assignment: overwrite the value under an existing key in
place, otherwise append the new key at the end. -/
def gridSet : Grid → GridPos → Option Int → Grid
  | [], p, v => [(p, v)]
  | (q, w) :: rest, p, v =>
    if q = p then (q, v) :: rest else (q, w) :: gridSet rest p v

/-- Python del of a key: drop its entry. -/
def gridErase : Grid → GridPos → Grid
  | [], _ => []
  | (q, w) :: rest, p => if q = p then rest else (q, w) :: gridErase rest p

/-- A floor layout (class FloorLayout): grid extent, cell map and connection
list. -/
structure FloorLayout where
  rows : Int
  cols : Int
  grid : Grid
  connections : List RoomConnection
deriving DecidableEq, Repr

/-- FloorLayout.__init__: a dense rows by cols grid of empty cells, built
row-major, with no connections. -/
def FloorLayout.init (rows cols : Int) : FloorLayout :=
  { rows := rows, cols := cols,
    grid := (List.range rows.toNat).flatMap (fun (row : Nat) =>
      (List.range cols.toNat).map (fun (col : Nat) =>
        ((⟨(row : Int), (col : Int)⟩ : GridPos), (none : Option Int)))),
    connections := [] }

/-- FloorLayout.place_room: overwrite one cell, but only when the key is
already present in the grid dict; otherwise nothing changes. -/
def FloorLayout.place_room (fl : FloorLayout) (pos : GridPos) (room_id : Option Int) : FloorLayout :=
  if gridHas fl.grid pos then { fl with grid := gridSet fl.grid pos room_id } else fl

/-- FloorLayout.get_room_at: dict get with default None. -/
def FloorLayout.get_room_at (fl : FloorLayout) (pos : GridPos) : Option Int :=
  gridGet fl.grid pos

/-- FloorLayout.add_row: increment rows and create the new bottom cells. -/
def FloorLayout.add_row (fl : FloorLayout) : FloorLayout :=
  { fl with
    rows := fl.rows + 1,
    grid := ((List.range fl.cols.toNat).foldl
      (fun g (col : Nat) => gridSet g ⟨fl.rows + 1 - 1, (col : Int)⟩ none) fl.grid) }

/-- FloorLayout.add_column: increment cols and create the new right cells. -/
def FloorLayout.add_column (fl : FloorLayout) : FloorLayout :=
  { fl with
    cols := fl.cols + 1,
    grid := ((List.range fl.rows.toNat).foldl
      (fun g (row : Nat) => gridSet g ⟨(row : Int), fl.cols + 1 - 1⟩ none) fl.grid) }

/-- FloorLayout.remove_row: refuse when only one row remains or any bottom
cell is occupied; otherwise delete the bottom cells, decrement rows, and
keep only connections whose endpoints both lie above the removed row. -/
def FloorLayout.remove_row (fl : FloorLayout) : Bool × FloorLayout :=
  if fl.rows ≤ 1 then (false, fl)
  else if (List.range fl.cols.toNat).any
      (fun (col : Nat) => (gridGet fl.grid ⟨fl.rows - 1, (col : Int)⟩).isSome) then (false, fl)
  else
    let g := (List.range fl.cols.toNat).foldl
      (fun g (col : Nat) => gridErase g ⟨fl.rows - 1, (col : Int)⟩) fl.grid
    (true, { fl with
      rows := fl.rows - 1, grid := g,
      connections := (fl.connections.filter
        (fun c => decide (c.from_pos.row < fl.rows - 1 ∧ c.to_pos.row < fl.rows - 1))) })

/-- FloorLayout.remove_column: the column-wise mirror of remove_row. -/
def FloorLayout.remove_column (fl : FloorLayout) : Bool × FloorLayout :=
  if fl.cols ≤ 1 then (false, fl)
  else if (List.range fl.rows.toNat).any
      (fun (row : Nat) => (gridGet fl.grid ⟨(row : Int), fl.cols - 1⟩).isSome) then (false, fl)
  else
    let g := (List.range fl.rows.toNat).foldl
      (fun g (row : Nat) => gridErase g ⟨(row : Int), fl.cols - 1⟩) fl.grid
    (true, { fl with
      cols := fl.cols - 1, grid := g,
      connections := (fl.connections.filter
        (fun c => decide (c.from_pos.col < fl.cols - 1 ∧ c.to_pos.col < fl.cols - 1))) })

/-- Whether a stored connection links the two given positions, in either
orientation: the match test shared by set_connection and get_connection. -/
def connMatches (a b : GridPos) (c : RoomConnection) : Bool :=
  decide ((c.from_pos = a ∧ c.to_pos = b) ∨ (c.from_pos = b ∧ c.to_pos = a))

/-- FloorLayout.set_connection: strip every stored connection matching the
pair in either orientation, then append a fresh record unless the new door
position is none. -/
def FloorLayout.set_connection (fl : FloorLayout) (a b : GridPos) (door_position : String) : FloorLayout :=
  let kept := fl.connections.filter (fun c => !(connMatches a b c))
  { fl with connections :=
      if door_position ≠ "none" then kept ++ [⟨a, b, door_position⟩] else kept }

/-- FloorLayout.get_connection: first stored connection matching the pair in
either orientation. -/
def FloorLayout.get_connection (fl : FloorLayout) (a b : GridPos) : Option RoomConnection :=
  fl.connections.find? (connMatches a b)

/-- The tile_types legend: an insertion-ordered dict from stringified tile
ids to small string-to-string descriptor dicts (keys name, color,
solidType as present). -/
abbrev TileTypes := List (String × List (String × String))

/-- The default tile_types table built by Level.__init__. -/
def defaultTileTypes : TileTypes :=
  [ ("0", [("name", "empty"), ("solidType", "none")]),
    ("1", [("name", "block"), ("color", "brown"), ("solidType", "block")]),
    ("2", [("name", "platform"), ("color", "green"), ("solidType", "platform")]),
    ("8", [("name", "spawn"), ("color", "magenta"), ("solidType", "none")]),
    ("9", [("name", "searchable"), ("solidType", "none")]) ]

/-- A level (class Level): legend, rooms, legacy layout, floor layouts. -/
structure Level where
  tile_types : TileTypes
  rooms : List Room
  layout : List LayoutEntry
  floor_layouts : List FloorLayout
deriving DecidableEq, Repr

/-- Level.__init__. -/
def Level.init : Level :=
  { tile_types := defaultTileTypes, rooms := [], layout := [], floor_layouts := [] }

/-- Level.add_room: refuse when the id is taken, else append; the Bool is
the Python return value. -/
def Level.add_room (lvl : Level) (room : Room) : Bool × Level :=
  if lvl.rooms.any (fun r => r.id = room.id) then (false, lvl)
  else (true, { lvl with rooms := lvl.rooms ++ [room] })

/-- Renumber layout entries so that position equals the list index: the
final for loop of the resequencing code. -/
def renumber (l : List LayoutEntry) : List LayoutEntry :=
  l.enum.map (fun p => { p.2 with position := (p.1 : Int) })

/-- Stable sort of layout entries by position (Python list.sort with the
position key) followed by renumbering. -/
def resequence (l : List LayoutEntry) : List LayoutEntry :=
  renumber (l.mergeSort (fun a b => decide (a.position ≤ b.position)))

/-- Level.remove_room: drop the room and its layout entries, then sort the
remaining layout by position and renumber it. -/
def Level.remove_room (lvl : Level) (room_id : Int) : Level :=
  { lvl with
    rooms := lvl.rooms.filter (fun r => decide (r.id ≠ room_id)),
    layout := resequence (lvl.layout.filter (fun le => decide (le.room_id ≠ room_id))) }

/-- Level.get_room: first room with the given id. -/
def Level.get_room (lvl : Level) (room_id : Int) : Option Room :=
  lvl.rooms.find? (fun r => decide (r.id = room_id))

/-- Level.get_next_room_id: one past the maximum existing id, or 1 when
there are no rooms. -/
def Level.get_next_room_id (lvl : Level) : Int :=
  match lvl.rooms with
  | [] => 1
  | r :: rs => (((r :: rs).map (fun room => room.id)).maximum.unbot' 0) + 1

/-- Level.add_to_layout: refuse when no room has the id, else append an
entry at position equal to the current layout length. -/
def Level.add_to_layout (lvl : Level) (room_id : Int) : Bool × Level :=
  if lvl.rooms.any (fun r => r.id = room_id) then
    (true, { lvl with layout := lvl.layout ++ [⟨room_id, (lvl.layout.length : Int)⟩] })
  else (false, lvl)

/-- Level.remove_from_layout: drop entries at the given position, then sort
by position and renumber. -/
def Level.remove_from_layout (lvl : Level) (position : Int) : Level :=
  { lvl with
    layout := resequence (lvl.layout.filter (fun le => decide (le.position ≠ position))) }

/-- Level.move_in_layout: no-op when either index is out of bounds, else
pop the entry at the old index, reinsert it at the new index, and renumber
positions in list order. -/
def Level.move_in_layout (lvl : Level) (old_position new_position : Int) : Level :=
  if old_position < 0 ∨ (lvl.layout.length : Int) ≤ old_position then lvl
  else if new_position < 0 ∨ (lvl.layout.length : Int) ≤ new_position then lvl
  else
    let entry := lvl.layout.getD old_position.toNat ⟨0, 0⟩
    let popped := lvl.layout.eraseIdx old_position.toNat
    { lvl with layout := renumber (popped.insertIdx new_position.toNat entry) }

/-- The fixed zero-spawn validation message. -/
def noSpawnMsg : String := "No spawn point found in level (place exactly 1 spawn tile)"

/-- One spawn-location description, Room id at (x, y). -/
def spawnLocString (room_id : Int) (x y : Nat) : String :=
  "Room " ++ pyIntStr room_id ++ " at (" ++ pyNatStr x ++ ", " ++ pyNatStr y ++ ")"

/-- The multiple-spawn validation message for a given count and location
list. -/
def multiSpawnMsg (count : Nat) (locs : List String) : String :=
  "Multiple spawn points found (" ++ pyNatStr count ++
    "). Only 1 spawn allowed. Locations: " ++ String.intercalate ", " locs

/-- Spawn locations in a single room, in row-major scan order. -/
def roomSpawnLocs (room : Room) : List String :=
  room.interior.enum.flatMap (fun yrow =>
    yrow.2.enum.filterMap (fun xt =>
      if xt.2 = TileType.SPAWN then some (spawnLocString room.id xt.1 yrow.1) else none))

/-- Spawn locations across all rooms, in the scan order of validate. -/
def Level.spawnLocs (lvl : Level) : List String :=
  lvl.rooms.flatMap roomSpawnLocs

/-- Per-room interior dimension errors: a height-mismatch message when the
row count differs from height minus 2, then at most one width-mismatch
message when any row length differs from width minus 2. -/
def roomDimErrors (room : Room) : List String :=
  (if (room.interior.length : Int) ≠ room.height - 2 then
    ["Room " ++ pyIntStr room.id ++ ": Interior height mismatch"] else []) ++
  (if room.interior.any (fun row => decide ((row.length : Int) ≠ room.width - 2)) then
    ["Room " ++ pyIntStr room.id ++ ": Interior width mismatch"] else [])

/-- Level.validate: duplicate-id check, per-room dimension checks, layout
referential and position-sequence checks, then the exactly-one-spawn
check, all accumulated in order into one message list. -/
def Level.validate (lvl : Level) : List String :=
  (if (lvl.rooms.map (fun r => r.id)).Nodup then [] else ["Duplicate room IDs found"]) ++
  (lvl.rooms.flatMap roomDimErrors) ++
  (lvl.layout.filterMap (fun e =>
    if lvl.rooms.any (fun r => r.id = e.room_id) then none
    else some ("Layout references non-existent room " ++ pyIntStr e.room_id))) ++
  (if (lvl.layout.map (fun le => le.position)).mergeSort (fun a b => decide (a ≤ b)) =
      (List.range lvl.layout.length).map (fun i => (i : Int)) then []
   else ["Layout positions are not sequential"]) ++
  (match lvl.spawnLocs with
   | [] => [noSpawnMsg]
   | [_] => []
   | locs => [multiSpawnMsg locs.length locs])

/-- The dictionary Room.to_dict produces and Room.from_dict consumes; field
for field the room itself, so it is represented by the same record type. -/
def Room.to_dict (r : Room) : Room := r

/-- Room.from_dict: construct a room from id, width, height, then overwrite
interior, exits and theme with the stored values. -/
def Room.from_dict (d : Room) : Room :=
  { Room.init d.id d.width d.height with
    interior := d.interior, exits := d.exits, theme := d.theme }

/-- The dictionary FloorLayout.to_dict produces: extent, the dense
row-major grid value matrix, and the connection records in order. -/
structure FloorLayoutDoc where
  rows : Int
  cols : Int
  grid : List (List (Option Int))
  connections : List RoomConnection
deriving DecidableEq, Repr

/-- FloorLayout.to_dict: read every in-extent cell with dict get (missing
keys export as null) into a row-major matrix. -/
def FloorLayout.to_dict (fl : FloorLayout) : FloorLayoutDoc :=
  { rows := fl.rows, cols := fl.cols,
    grid := (List.range fl.rows.toNat).map (fun (row : Nat) =>
      (List.range fl.cols.toNat).map (fun (col : Nat) =>
        gridGet fl.grid ⟨(row : Int), (col : Int)⟩)),
    connections := fl.connections }

/-- The row-major traversal order of the nested for loops over rows and
cols. -/
def rowMajor (rows cols : Nat) : List (Nat × Nat) :=
  (List.range rows).flatMap (fun r => (List.range cols).map (fun c => (r, c)))

/-- FloorLayout.from_dict: build an empty rows-by-cols layout, then store
the matrix entry of every in-extent position into its grid cell in
row-major loop order, then append the connection records in order. -/
def FloorLayout.from_dict (d : FloorLayoutDoc) : FloorLayout :=
  { FloorLayout.init d.rows d.cols with
    grid := ((rowMajor d.rows.toNat d.cols.toNat).foldl (fun g rc =>
        gridSet g ⟨((rc.1 : Nat) : Int), ((rc.2 : Nat) : Int)⟩ ((d.grid.getD rc.1 []).getD rc.2 none))
      (FloorLayout.init d.rows d.cols).grid),
    connections := d.connections }

/-- The parsed JSON document a level file holds: what json.load returns
from the output of Level.to_json, with each object mapped to its record
type. -/
structure LevelDoc where
  tile_types : TileTypes
  rooms : List Room
  layout : List LayoutEntry
  floor_layouts : List FloorLayoutDoc
deriving DecidableEq, Repr

/-- Level.to_json, embedded at the document level: the JSON value written
to the file (the byte-exact text it is rendered to is modelled separately
by Level.to_json_str). -/
def Level.to_json (lvl : Level) : LevelDoc :=
  { tile_types := lvl.tile_types,
    rooms := lvl.rooms.map Room.to_dict,
    layout := lvl.layout,
    floor_layouts := lvl.floor_layouts.map FloorLayout.to_dict }

/-- Level.from_json, embedded at the document level: rebuild the level from
a parsed document. -/
def Level.from_json (d : LevelDoc) : Level :=
  { tile_types := d.tile_types,
    rooms := d.rooms.map Room.from_dict,
    layout := d.layout,
    floor_layouts := d.floor_layouts.map FloorLayout.from_dict }

/-- JSON string escaping for one character, as json.dumps renders the
characters this editor's data contains (quote, backslash and common control
characters escaped; other characters pass through). -/
def pyEscChar (c : Char) : List Char :=
  if c = '"' then ['\\', '"']
  else if c = '\\' then ['\\', '\\']
  else if c = '\n' then ['\\', 'n']
  else if c = '\t' then ['\\', 't']
  else if c = '\r' then ['\\', 'r']
  else [c]

/-- A JSON string literal: escaped content between double quotes. -/
def pyQuote (s : String) : String :=
  ⟨'"' :: (s.data.flatMap pyEscChar) ++ ['"']⟩

/-- Indentation of n levels at 4 spaces each, as json.dumps indent=4. -/
def jpad (n : Nat) : String := ⟨List.replicate (4 * n) ' '⟩

/-- Compact rendering of one exit slot (json.dumps without indent). -/
def dumpsExitDoor : Option ExitDoor → String
  | none => "null"
  | some d => "\x7b\"type\": " ++ pyQuote d.ty ++ "\x7d"

/-- Compact rendering of the exits dict (json.dumps without indent). -/
def dumpsExits (e : Exits) : String :=
  "\x7b\"left\": " ++ dumpsExitDoor e.left ++ ", \"right\": " ++ dumpsExitDoor e.right ++ "\x7d"

/-- Compact rendering of the theme dict (json.dumps without indent). -/
def dumpsTheme (t : Theme) : String :=
  "\x7b\"wall_color\": " ++ pyQuote t.wall_color ++ ", \"floor_color\": " ++
    pyQuote t.floor_color ++ ", \"ceiling_color\": " ++ pyQuote t.ceiling_color ++ "\x7d"

/-- Indented rendering of a list from already-rendered item strings, as
json.dumps indent=4 lays out an array whose items start at level n+1. -/
def dumpsListInd (n : Nat) (items : List String) : String :=
  match items with
  | [] => "[]"
  | _ => "[\n" ++ String.intercalate ",\n" (items.map (fun s => jpad (n + 1) ++ s)) ++
      "\n" ++ jpad n ++ "]"

/-- Indented rendering of a string-to-string object at level n. -/
def dumpsStrObjInd (n : Nat) (fields : List (String × String)) : String :=
  match fields with
  | [] => "\x7b\x7d"
  | _ => "\x7b\n" ++ String.intercalate ",\n"
      (fields.map (fun kv => jpad (n + 1) ++ pyQuote kv.1 ++ ": " ++ pyQuote kv.2)) ++
      "\n" ++ jpad n ++ "\x7d"

/-- Indented rendering of the tile_types table at level n. -/
def dumpsTileTypesInd (n : Nat) (tt : TileTypes) : String :=
  match tt with
  | [] => "\x7b\x7d"
  | _ => "\x7b\n" ++ String.intercalate ",\n"
      (tt.map (fun kv => jpad (n + 1) ++ pyQuote kv.1 ++ ": " ++ dumpsStrObjInd (n + 1) kv.2)) ++
      "\n" ++ jpad n ++ "\x7d"

/-- Indented rendering of one layout entry object at level n. -/
def dumpsLayoutEntryInd (n : Nat) (e : LayoutEntry) : String :=
  "\x7b\n" ++ jpad (n + 1) ++ "\"room_id\": " ++ pyIntStr e.room_id ++ ",\n" ++
    jpad (n + 1) ++ "\"position\": " ++ pyIntStr e.position ++ "\n" ++ jpad n ++ "\x7d"

/-- Indented rendering of one grid position object at level n. -/
def dumpsGridPosInd (n : Nat) (p : GridPos) : String :=
  "\x7b\n" ++ jpad (n + 1) ++ "\"row\": " ++ pyIntStr p.row ++ ",\n" ++
    jpad (n + 1) ++ "\"col\": " ++ pyIntStr p.col ++ "\n" ++ jpad n ++ "\x7d"

/-- Indented rendering of one connection object at level n. -/
def dumpsConnInd (n : Nat) (c : RoomConnection) : String :=
  "\x7b\n" ++ jpad (n + 1) ++ "\"from\": " ++ dumpsGridPosInd (n + 1) c.from_pos ++ ",\n" ++
    jpad (n + 1) ++ "\"to\": " ++ dumpsGridPosInd (n + 1) c.to_pos ++ ",\n" ++
    jpad (n + 1) ++ "\"door_position\": " ++ pyQuote c.door_position ++ "\n" ++ jpad n ++ "\x7d"

/-- A grid cell rendered as JSON: null or the room id. -/
def dumpsCell : Option Int → String
  | none => "null"
  | some v => pyIntStr v

/-- Indented rendering of one floor-layout document object at level n. -/
def dumpsFLInd (n : Nat) (d : FloorLayoutDoc) : String :=
  "\x7b\n" ++ jpad (n + 1) ++ "\"rows\": " ++ pyIntStr d.rows ++ ",\n" ++
    jpad (n + 1) ++ "\"cols\": " ++ pyIntStr d.cols ++ ",\n" ++
    jpad (n + 1) ++ "\"grid\": " ++
      dumpsListInd (n + 1) (d.grid.map (fun row => dumpsListInd (n + 2) (row.map dumpsCell))) ++ ",\n" ++
    jpad (n + 1) ++ "\"connections\": " ++
      dumpsListInd (n + 1) (d.connections.map (dumpsConnInd (n + 2))) ++ "\n" ++ jpad n ++ "\x7d"

/-- The str.join of Python with a fixed comma separator. -/
def joinComma : List String → String
  | [] => ""
  | [s] => s
  | s :: rest => s ++ "," ++ joinComma rest

/-- One compact interior row: bracketed, comma-joined, no whitespace. -/
def interiorRowStr (row : List Int) : String :=
  "[" ++ joinComma (row.map pyIntStr) ++ "]"

/-- The format_interior helper of Level.to_json: compact rows, each on its
own line indented with eight spaces, closed at six spaces. -/
def format_interior (interior : List (List Int)) : String :=
  "[\n        " ++ String.intercalate ",\n        " (interior.map interiorRowStr) ++ "\n      ]"

/-- One room object as Level.to_json hand-builds it: two-space-based manual
indentation, compact exits and theme. -/
def roomBlock (room : Room) : String :=
  "    \x7b\n" ++
  "      \"id\": " ++ pyIntStr room.id ++ ",\n" ++
  "      \"width\": " ++ pyIntStr room.width ++ ",\n" ++
  "      \"height\": " ++ pyIntStr room.height ++ ",\n" ++
  "      \"interior\": " ++ format_interior room.interior ++ ",\n" ++
  "      \"exits\": " ++ dumpsExits room.exits ++ ",\n" ++
  "      \"theme\": " ++ dumpsTheme room.theme ++ "\n" ++
  "    \x7d"

/-- The rooms section of Level.to_json: room blocks joined with commas, a
newline after every block. -/
def roomsSection : List Room → String
  | [] => ""
  | [r] => roomBlock r ++ "\n"
  | r :: rest => roomBlock r ++ ",\n" ++ roomsSection rest

/-- Level.to_json, embedded at the byte level: the exact text written to the
output file. -/
def Level.to_json_str (lvl : Level) : String :=
  "\x7b\n" ++
  "  \"tile_types\": " ++ dumpsTileTypesInd 0 lvl.tile_types ++ ",\n" ++
  "  \"rooms\": [\n" ++ roomsSection lvl.rooms ++ "  ],\n" ++
  "  \"layout\": " ++ dumpsListInd 0 (lvl.layout.map (dumpsLayoutEntryInd 1)) ++ ",\n" ++
  "  \"floor_layouts\": " ++
    dumpsListInd 0 ((lvl.floor_layouts.map FloorLayout.to_dict).map (dumpsFLInd 1)) ++
  "\n\x7d\n"

/-- Modelled from the spec wording of the export formatting contract, for
comparison with Level.to_json_str: an exit slot rendered as indented
4-space pretty-printed JSON at level n. -/
def dumpsExitDoorInd (n : Nat) : Option ExitDoor → String
  | none => "null"
  | some d => "\x7b\n" ++ jpad (n + 1) ++ "\"type\": " ++ pyQuote d.ty ++ "\n" ++ jpad n ++ "\x7d"

/-- Modelled from the spec wording: the exits dict rendered as indented
4-space pretty-printed JSON at level n. -/
def dumpsExitsInd (n : Nat) (e : Exits) : String :=
  "\x7b\n" ++ jpad (n + 1) ++ "\"left\": " ++ dumpsExitDoorInd (n + 1) e.left ++ ",\n" ++
    jpad (n + 1) ++ "\"right\": " ++ dumpsExitDoorInd (n + 1) e.right ++ "\n" ++ jpad n ++ "\x7d"

/-- Modelled from the spec wording: the theme dict rendered as indented
4-space pretty-printed JSON at level n. -/
def dumpsThemeInd (n : Nat) (t : Theme) : String :=
  "\x7b\n" ++ jpad (n + 1) ++ "\"wall_color\": " ++ pyQuote t.wall_color ++ ",\n" ++
    jpad (n + 1) ++ "\"floor_color\": " ++ pyQuote t.floor_color ++ ",\n" ++
    jpad (n + 1) ++ "\"ceiling_color\": " ++ pyQuote t.ceiling_color ++ "\n" ++ jpad n ++ "\x7d"

/-- Modelled from the spec wording: the interior matrix with compact rows,
the rows themselves on separate lines indented at level n+1. -/
def formatInteriorInd (n : Nat) (interior : List (List Int)) : String :=
  match interior with
  | [] => "[]"
  | _ => "[\n" ++ String.intercalate ",\n" (interior.map (fun row => jpad (n + 1) ++ interiorRowStr row)) ++
      "\n" ++ jpad n ++ "]"

/-- Modelled from the spec wording: a room object rendered as indented
4-space pretty-printed JSON at level n, interior rows excepted. -/
def claimedRoomInd (n : Nat) (room : Room) : String :=
  "\x7b\n" ++ jpad (n + 1) ++ "\"id\": " ++ pyIntStr room.id ++ ",\n" ++
    jpad (n + 1) ++ "\"width\": " ++ pyIntStr room.width ++ ",\n" ++
    jpad (n + 1) ++ "\"height\": " ++ pyIntStr room.height ++ ",\n" ++
    jpad (n + 1) ++ "\"interior\": " ++ formatInteriorInd (n + 1) room.interior ++ ",\n" ++
    jpad (n + 1) ++ "\"exits\": " ++ dumpsExitsInd (n + 1) room.exits ++ ",\n" ++
    jpad (n + 1) ++ "\"theme\": " ++ dumpsThemeInd (n + 1) room.theme ++ "\n" ++ jpad n ++ "\x7d"

/-- Modelled from the spec wording of the export formatting contract: the
whole document as indented 4-space pretty-printed JSON, with only the
interior rows kept compact on separate indented lines. -/
def Level.to_json_str_claimed (lvl : Level) : String :=
  "\x7b\n" ++
  jpad 1 ++ "\"tile_types\": " ++ dumpsTileTypesInd 1 lvl.tile_types ++ ",\n" ++
  jpad 1 ++ "\"rooms\": " ++ dumpsListInd 1 (lvl.rooms.map (claimedRoomInd 2)) ++ ",\n" ++
  jpad 1 ++ "\"layout\": " ++ dumpsListInd 1 (lvl.layout.map (dumpsLayoutEntryInd 2)) ++ ",\n" ++
  jpad 1 ++ "\"floor_layouts\": " ++
    dumpsListInd 1 ((lvl.floor_layouts.map FloorLayout.to_dict).map (dumpsFLInd 2)) ++
  "\n\x7d\n"

/-- A grid position lies inside the rows-by-cols extent of a layout. -/
def inExtent (fl : FloorLayout) (p : GridPos) : Prop :=
  0 ≤ p.row ∧ p.row < fl.rows ∧ 0 ≤ p.col ∧ p.col < fl.cols

instance (fl : FloorLayout) (p : GridPos) : Decidable (inExtent fl p) := by
  unfold inExtent; infer_instance

/-- A room interior is rectangular: every row has the length of row 0. -/
def Room.rectangular (r : Room) : Prop :=
  ∀ row ∈ r.interior, row.length = r.row0len

instance (r : Room) : Decidable (Room.rectangular r) := by
  unfold Room.rectangular; infer_instance

theorem gridFind_eq_none_of_forall {g : Grid} {p : GridPos}
    (h : ∀ e ∈ g, e.1 ≠ p) : gridFind g p = none := by
  induction g with
  | nil => rfl
  | cons e rest ih =>
    obtain ⟨q, v⟩ := e
    have hq : q ≠ p := h (q, v) (List.mem_cons_self _ _)
    simp only [gridFind, if_neg hq]
    exact ih (fun e he => h e (List.mem_cons_of_mem _ he))

/-- C10: on a floor layout whose grid keys all lie inside the extent, access
at a position outside the extent is harmless: place_room leaves the layout
unchanged and get_room_at returns none. -/
theorem c10_out_of_grid_access (fl : FloorLayout) (pos : GridPos) (rid : Option Int)
    (hext : ∀ e ∈ fl.grid, inExtent fl e.1) (hpos : ¬ inExtent fl pos) :
    fl.place_room pos rid = fl ∧ fl.get_room_at pos = none := by
  have hfind : gridFind fl.grid pos = none :=
    gridFind_eq_none_of_forall (fun e he hq => hpos (hq ▸ hext e he))
  refine ⟨?_, ?_⟩
  · unfold FloorLayout.place_room gridHas
    rw [hfind]
    rfl
  · unfold FloorLayout.get_room_at gridGet
    rw [hfind]
    rfl

/-- Witness for C10 at a concrete layout and position. -/
theorem c10_witness :
    (FloorLayout.init 2 2).place_room ⟨5, 5⟩ (some 3) = FloorLayout.init 2 2 ∧
    (FloorLayout.init 2 2).get_room_at ⟨5, 5⟩ = none :=
  c10_out_of_grid_access (FloorLayout.init 2 2) ⟨5, 5⟩ (some 3) (by decide) (by decide)

theorem connMatches_symm (a b : GridPos) (c : RoomConnection) :
    connMatches b a c = connMatches a b c := by
  unfold connMatches
  by_cases h₁ : c.from_pos = a ∧ c.to_pos = b <;> by_cases h₂ : c.from_pos = b ∧ c.to_pos = a <;>
    simp [h₁, h₂]

theorem connMatches_new (a b : GridPos) (d : String) :
    connMatches a b ⟨a, b, d⟩ = true := by
  simp [connMatches]

theorem find?_filtered_none (a b : GridPos) (l : List RoomConnection) :
    (l.filter (fun c => !(connMatches a b c))).find? (connMatches a b) = none := by
  rw [List.find?_eq_none]
  intro x hx
  have := (List.mem_filter.mp hx).2
  simp only [Bool.not_eq_true'] at this
  simp [this]

/-- The connection list produced by set_connection: the kept records plus
at most one fresh record. -/
theorem set_connection_connections (fl : FloorLayout) (a b : GridPos) (d : String) :
    (fl.set_connection a b d).connections =
      if d ≠ "none" then fl.connections.filter (fun c => !(connMatches a b c)) ++ [⟨a, b, d⟩]
      else fl.connections.filter (fun c => !(connMatches a b c)) := by
  unfold FloorLayout.set_connection
  split <;> rfl

theorem connMatches_fun_symm (a b : GridPos) : connMatches b a = connMatches a b :=
  funext (connMatches_symm a b)

theorem filter_matches_kept_nil (a b : GridPos) (l : List RoomConnection) :
    (l.filter (fun c => !(connMatches a b c))).filter (connMatches a b) = [] := by
  rw [List.filter_eq_nil_iff]
  intro x hx
  have := (List.mem_filter.mp hx).2
  simp only [Bool.not_eq_true'] at this
  simp [this]

/-- C4: door connections are undirected: after setting a top door between A
and B, both orientations retrieve that door; after clearing it through
either orientation, both retrievals come back empty; and after any
set_connection call, at most one stored record matches the pair. -/
theorem c4_connections_undirected (fl : FloorLayout) (a b : GridPos) :
    (((fl.set_connection a b "top").get_connection a b).map
        (fun c => c.door_position) = some "top") ∧
    (((fl.set_connection a b "top").get_connection b a).map
        (fun c => c.door_position) = some "top") ∧
    (((fl.set_connection a b "top").set_connection a b "none").get_connection a b = none) ∧
    (((fl.set_connection a b "top").set_connection a b "none").get_connection b a = none) ∧
    (((fl.set_connection a b "top").set_connection b a "none").get_connection a b = none) ∧
    (((fl.set_connection a b "top").set_connection b a "none").get_connection b a = none) ∧
    (∀ (fl0 : FloorLayout) (d : String),
      (((fl0.set_connection a b d).connections.filter (connMatches a b)).length ≤ 1)) := by
  have htop : ("top" : String) ≠ "none" := by decide
  have hnn : ¬(("none" : String) ≠ "none") := fun h => h rfl
  have hget : (fl.set_connection a b "top").get_connection a b =
      some ⟨a, b, "top"⟩ := by
    unfold FloorLayout.get_connection
    rw [set_connection_connections, if_pos htop, List.find?_append, find?_filtered_none]
    simp [List.find?, connMatches_new]
  have hgetBA : (fl.set_connection a b "top").get_connection b a =
      some ⟨a, b, "top"⟩ := by
    unfold FloorLayout.get_connection
    rw [connMatches_fun_symm]
    exact hget
  have hnoneAB : ∀ fl1 : FloorLayout,
      (fl1.set_connection a b "none").get_connection a b = none := by
    intro fl1
    unfold FloorLayout.get_connection
    rw [set_connection_connections, if_neg hnn]
    exact find?_filtered_none a b _
  have hnoneBA : ∀ fl1 : FloorLayout,
      (fl1.set_connection b a "none").get_connection a b = none := by
    intro fl1
    unfold FloorLayout.get_connection
    rw [set_connection_connections, if_neg hnn, ← connMatches_fun_symm a b]
    exact find?_filtered_none b a _
  have hsymmFind : ∀ fl2 : FloorLayout,
      fl2.get_connection b a = fl2.get_connection a b := by
    intro fl2
    unfold FloorLayout.get_connection
    rw [connMatches_fun_symm]
  refine ⟨by rw [hget]; rfl, by rw [hgetBA]; rfl, hnoneAB _, ?_, hnoneBA _, ?_, ?_⟩
  · rw [hsymmFind]
    exact hnoneAB _
  · rw [hsymmFind]
    exact hnoneBA _
  · intro fl0 d
    rw [set_connection_connections]
    by_cases hd : d ≠ "none"
    · rw [if_pos hd, List.filter_append, filter_matches_kept_nil]
      simp [List.filter, connMatches_new]
    · rw [if_neg hd, filter_matches_kept_nil]
      simp

theorem getD_mem_of_lt {l : List (List Int)} {n : Nat} (h : n < l.length) :
    l.getD n [] ∈ l := by
  rw [List.getD_eq_getElem?_getD, List.getElem?_eq_getElem h]
  exact List.getElem_mem h

/-- C8: on a rectangular interior, get_tile returns the stored tile when the
coordinates lie inside the interior extent and Empty otherwise, and an
out-of-range set_tile changes nothing; the extent of row y is measured by
that row itself, rectangularity carrying the check over to row 0. -/
theorem c8_permissive_tile_access (r : Room) (x y t : Int)
    (hrect : Room.rectangular r) :
    ((0 ≤ y ∧ y < (r.interior.length : Int) ∧ 0 ≤ x ∧
        x < ((r.interior.getD y.toNat []).length : Int)) →
      r.get_tile x y = (r.interior.getD y.toNat []).getD x.toNat TileType.EMPTY) ∧
    (¬(0 ≤ y ∧ y < (r.interior.length : Int) ∧ 0 ≤ x ∧
        x < ((r.interior.getD y.toNat []).length : Int)) →
      r.get_tile x y = TileType.EMPTY) ∧
    (¬(0 ≤ y ∧ y < (r.interior.length : Int) ∧ 0 ≤ x ∧
        x < ((r.interior.getD y.toNat []).length : Int)) →
      r.set_tile x y t = r) := by
  have hiff : (0 ≤ y ∧ y < (r.interior.length : Int) ∧ 0 ≤ x ∧
        x < ((r.interior.getD y.toNat []).length : Int)) ↔
      (0 ≤ y ∧ y < (r.interior.length : Int) ∧ 0 ≤ x ∧ x < (r.row0len : Int)) := by
    constructor
    · rintro ⟨h1, h2, h3, h4⟩
      refine ⟨h1, h2, h3, ?_⟩
      have hy : y.toNat < r.interior.length := by omega
      have := hrect _ (getD_mem_of_lt hy)
      omega
    · rintro ⟨h1, h2, h3, h4⟩
      refine ⟨h1, h2, h3, ?_⟩
      have hy : y.toNat < r.interior.length := by omega
      have := hrect _ (getD_mem_of_lt hy)
      omega
  refine ⟨?_, ?_, ?_⟩
  · intro h
    unfold Room.get_tile
    rw [if_pos (hiff.mp h)]
  · intro h
    unfold Room.get_tile
    rw [if_neg (fun hc => h (hiff.mpr hc))]
  · intro h
    unfold Room.set_tile
    rw [if_neg (fun hc => h (hiff.mpr hc))]

/-- Witness for C8 at a concrete room and out-of-range coordinates. -/
theorem c8_witness :
    (Room.init 1 4 4).get_tile 5 0 = TileType.EMPTY ∧
    (Room.init 1 4 4).set_tile 5 0 9 = Room.init 1 4 4 ∧
    (Room.init 1 4 4).get_tile 0 0 =
      (((Room.init 1 4 4).interior.getD 0 []).getD 0 TileType.EMPTY) := by
  have h := c8_permissive_tile_access (Room.init 1 4 4) 5 0 9 (by decide)
  have h2 := c8_permissive_tile_access (Room.init 1 4 4) 0 0 9 (by decide)
  exact ⟨h.2.1 (by decide), h.2.2 (by decide), h2.1 (by decide)⟩

theorem next_room_id_spec (lvl : Level) (hne : lvl.rooms ≠ []) :
    ∃ m : Int, (lvl.rooms.map (fun room => room.id)).maximum = ↑m ∧
      lvl.get_next_room_id = m + 1 := by
  match hll : lvl.rooms with
  | [] => exact absurd hll hne
  | r :: rs =>
    have hne' : ((r :: rs).map (fun room => room.id)) ≠ [] := by simp
    obtain ⟨m, hm⟩ : ∃ m : Int, ((r :: rs).map (fun room => room.id)).maximum = ↑m := by
      cases hmx : ((r :: rs).map (fun room => room.id)).maximum with
      | bot => exact absurd (List.maximum_eq_bot.mp hmx) hne'
      | coe m => exact ⟨m, rfl⟩
    refine ⟨m, hm, ?_⟩
    unfold Level.get_next_room_id
    rw [hll]
    dsimp only
    rw [hm]
    rfl

/-- C2 counterexample: starting from the empty level, add rooms 1 and 2,
then remove room 2 (the maximum id): get_next_room_id drops from 3 to 2
and returns the freed id 2 again. -/
theorem c2_counterexample :
    ¬ ((((Level.init.add_room (Room.init 1 10 8)).2.add_room
          (Room.init 2 10 8)).2).get_next_room_id ≤
        ((((Level.init.add_room (Room.init 1 10 8)).2.add_room
          (Room.init 2 10 8)).2).remove_room 2).get_next_room_id) ∧
    ((((Level.init.add_room (Room.init 1 10 8)).2.add_room
        (Room.init 2 10 8)).2).remove_room 2).get_next_room_id = 2 ∧
    (((Level.init.add_room (Room.init 1 10 8)).2.add_room
        (Room.init 2 10 8)).2).get_next_room_id = 3 := by
  refine ⟨?_, ?_, ?_⟩ <;> decide

/-- C2 amended: get_next_room_id is 1 on an empty level and otherwise one
past the maximum id, so it exceeds every present id; adding a room to a
nonempty level never lowers it, and removing any id strictly below some
present id leaves it unchanged; only removing the room holding the maximum
id can lower it. -/
theorem c2_next_room_id_amended (lvl : Level) :
    (lvl.rooms = [] → lvl.get_next_room_id = 1) ∧
    (∀ r ∈ lvl.rooms, r.id < lvl.get_next_room_id) ∧
    (∀ room : Room, lvl.rooms ≠ [] →
      lvl.get_next_room_id ≤ ((lvl.add_room room).2).get_next_room_id) ∧
    (∀ rid : Int, (∃ r ∈ lvl.rooms, rid < r.id) →
      (lvl.remove_room rid).get_next_room_id = lvl.get_next_room_id) := by
  refine ⟨?_, ?_, ?_, ?_⟩
  · intro h
    unfold Level.get_next_room_id
    rw [h]
  · intro r hr
    obtain ⟨m, hm, hnext⟩ := next_room_id_spec lvl (List.ne_nil_of_mem hr)
    have : r.id ≤ m :=
      List.le_maximum_of_mem (List.mem_map.mpr ⟨r, hr, rfl⟩) hm
    omega
  · intro room hne
    obtain ⟨m, hm, hnext⟩ := next_room_id_spec lvl hne
    unfold Level.add_room
    split
    · exact le_refl _
    · have hne' : (({ lvl with rooms := lvl.rooms ++ [room] } : Level)).rooms ≠ [] := by
        simp
      obtain ⟨m', hm', hnext'⟩ := next_room_id_spec _ hne'
      have hmem : m ∈ lvl.rooms.map (fun room => room.id) :=
        (List.maximum_eq_coe_iff.mp hm).1
      have hmem' : m ∈ (({ lvl with rooms := lvl.rooms ++ [room] } : Level)).rooms.map
          (fun room => room.id) := by
        simp only [List.map_append]
        exact List.mem_append_left _ hmem
      have : m ≤ m' := List.le_maximum_of_mem hmem' hm'
      dsimp only
      omega
  · intro rid ⟨r0, hr0, hrid⟩
    obtain ⟨m, hm, hnext⟩ := next_room_id_spec lvl (List.ne_nil_of_mem hr0)
    have hmax := List.maximum_eq_coe_iff.mp hm
    obtain ⟨rm, hrm, hrmid⟩ := List.mem_map.mp hmax.1
    have hr0le : r0.id ≤ m := List.le_maximum_of_mem (List.mem_map.mpr ⟨r0, hr0, rfl⟩) hm
    have hmne : rm.id ≠ rid := by omega
    have hrm' : rm ∈ (lvl.remove_room rid).rooms := by
      unfold Level.remove_room
      simp only [List.mem_filter]
      exact ⟨hrm, by simp [hmne]⟩
    obtain ⟨m', hm', hnext'⟩ := next_room_id_spec _ (List.ne_nil_of_mem hrm')
    have hm'eq : m' = m := by
      have h1 : m ∈ (lvl.remove_room rid).rooms.map (fun room => room.id) :=
        List.mem_map.mpr ⟨rm, hrm', hrmid⟩
      have h2 : m ≤ m' := List.le_maximum_of_mem h1 hm'
      have h3 : ∀ b ∈ (lvl.remove_room rid).rooms.map (fun room => room.id), b ≤ m := by
        intro b hb
        obtain ⟨rb, hrb, hrbid⟩ := List.mem_map.mp hb
        have : rb ∈ lvl.rooms := by
          unfold Level.remove_room at hrb
          exact (List.mem_filter.mp hrb).1
        have := hmax.2 rb.id (List.mem_map.mpr ⟨rb, this, rfl⟩)
        omega
      have := h3 m' ((List.maximum_eq_coe_iff.mp hm').1)
      omega
    omega

/-- Witness for C2 amended at a concrete level. -/
theorem c2_amended_witness :
    ((((Level.init.add_room (Room.init 1 10 8)).2.add_room
        (Room.init 3 10 8)).2).remove_room 1).get_next_room_id =
      (((Level.init.add_room (Room.init 1 10 8)).2.add_room
        (Room.init 3 10 8)).2).get_next_room_id ∧
    Level.init.get_next_room_id = 1 :=
  ⟨(c2_next_room_id_amended _).2.2.2 1 ⟨Room.init 3 10 8, by decide, by decide⟩,
   (c2_next_room_id_amended Level.init).1 rfl⟩

/-- C7: resizing a room with a well-formed interior produces exactly
new_height-2 rows of new_width-2 cells; cells inside the rectangle common
to the old and new interior extents keep their value, all others are
Empty. -/
theorem c7_resize_preserves_overlap (r : Room) (new_w new_h : Int)
    (hw : 2 ≤ r.width) (hh : 2 ≤ r.height) (hw' : 2 ≤ new_w) (hh' : 2 ≤ new_h)
    (hrows : (r.interior.length : Int) = r.height - 2)
    (hcols : ∀ row ∈ r.interior, (row.length : Int) = r.width - 2) :
    (r.resize new_w new_h).interior.length = (new_h - 2).toNat ∧
    (∀ row ∈ (r.resize new_w new_h).interior, row.length = (new_w - 2).toNat) ∧
    (∀ x y : Nat, y < (new_h - 2).toNat → x < (new_w - 2).toNat →
      ((r.resize new_w new_h).interior.getD y []).getD x TileType.EMPTY =
        if y < (r.height - 2).toNat ∧ x < (r.width - 2).toNat then
          (r.interior.getD y []).getD x TileType.EMPTY
        else TileType.EMPTY) := by
  have hYiff : ∀ n : Nat,
      (n < ((r.interior.length : Int) ⊓ (new_h - 2)).toNat) ↔
        (n < r.interior.length ∧ n < (new_h - 2).toNat) := by
    intro n
    rcases le_total ((r.interior.length : Int)) (new_h - 2) with hle | hle
    · rw [min_eq_left hle]; omega
    · rw [min_eq_right hle]; omega
  have hXiff : ∀ n : Nat,
      (n < (((r.interior.headD []).length : Int) ⊓ (new_w - 2)).toNat) ↔
        (n < (r.interior.headD []).length ∧ n < (new_w - 2).toNat) := by
    intro n
    rcases le_total (((r.interior.headD []).length : Int)) (new_w - 2) with hle | hle
    · rw [min_eq_left hle]; omega
    · rw [min_eq_right hle]; omega
  unfold Room.resize
  refine ⟨by simp, by simp, ?_⟩
  intro x y hy hx
  dsimp only
  have hrow : ∀ (f : Nat → List Int), ((List.range (new_h - 2).toNat).map f).getD y [] = f y := by
    intro f
    rw [List.getD_eq_getElem?_getD, List.getElem?_map, List.getElem?_range hy]
    rfl
  rw [hrow]
  have hcell : ∀ (f : Nat → Int), ((List.range (new_w - 2).toNat).map f).getD x TileType.EMPTY = f x := by
    intro f
    rw [List.getD_eq_getElem?_getD, List.getElem?_map, List.getElem?_range hx]
    rfl
  rw [hcell]
  by_cases hcase : y < (r.height - 2).toNat ∧ x < (r.width - 2).toNat
  · have hylen : y < r.interior.length := by omega
    have hne : r.interior ≠ [] := by
      intro hnil
      rw [hnil] at hylen
      exact absurd hylen (by simp)
    have hhead : r.interior.headD [] ∈ r.interior := by
      cases hl : r.interior with
      | nil => exact absurd hl hne
      | cons a l => simp [hl]
    have hheadlen := hcols _ hhead
    rw [if_pos hcase, if_pos ⟨(hYiff y).mpr ⟨hylen, hy⟩, (hXiff x).mpr ⟨by omega, hx⟩⟩]
  · rw [if_neg hcase, if_neg]
    intro ⟨hy', hx'⟩
    obtain ⟨hylen, -⟩ := (hYiff y).mp hy'
    have hne : r.interior ≠ [] := by
      intro hnil
      rw [hnil] at hylen
      exact absurd hylen (by simp)
    have hhead : r.interior.headD [] ∈ r.interior := by
      cases hl : r.interior with
      | nil => exact absurd hl hne
      | cons a l => simp [hl]
    have hheadlen := hcols _ hhead
    obtain ⟨hxlen, -⟩ := (hXiff x).mp hx'
    exact hcase ⟨by omega, by omega⟩

/-- Witness for C7: shrink a 5 by 5 room to 4 by 4 and inspect a preserved
cell and the new row shape. -/
theorem c7_witness :
    ((((Room.init 1 5 5).set_tile 1 1 9).resize 4 4).interior.getD 1 []).getD 1
        TileType.EMPTY =
      ((((Room.init 1 5 5).set_tile 1 1 9).interior.getD 1 []).getD 1 TileType.EMPTY) ∧
    (((Room.init 1 5 5).set_tile 1 1 9).resize 4 4).interior.length = 2 := by
  have h := c7_resize_preserves_overlap ((Room.init 1 5 5).set_tile 1 1 9) 4 4
    (by decide) (by decide) (by decide) (by decide) (by decide) (by decide)
  refine ⟨?_, h.1⟩
  have := h.2.2 1 1 (by decide) (by decide)
  rw [this, if_pos (by decide)]

theorem gridErase_sublist (g : Grid) (q : GridPos) : (gridErase g q).Sublist g := by
  induction g with
  | nil => simp [gridErase]
  | cons e rest ih =>
    obtain ⟨k, v⟩ := e
    unfold gridErase
    by_cases hk : k = q
    · rw [if_pos hk]
      exact List.sublist_cons_self _ _
    · rw [if_neg hk]
      exact List.Sublist.cons₂ _ ih

theorem gridFind_erase {g : Grid} (hnd : (g.map Prod.fst).Nodup) (q p : GridPos) :
    gridFind (gridErase g q) p = if p = q then none else gridFind g p := by
  induction g with
  | nil => simp [gridErase, gridFind]
  | cons e rest ih =>
    obtain ⟨k, v⟩ := e
    simp only [List.map_cons, List.nodup_cons] at hnd
    unfold gridErase
    by_cases hk : k = q
    · rw [if_pos hk]
      by_cases hp : p = q
      · rw [if_pos hp]
        apply gridFind_eq_none_of_forall
        intro e he hep
        exact hnd.1 (List.mem_map.mpr ⟨e, he, by rw [hep, hp, hk]⟩)
      · rw [if_neg hp]
        simp only [gridFind]
        rw [if_neg (fun h : k = p => hp (h ▸ hk))]
    · rw [if_neg hk]
      simp only [gridFind]
      by_cases hkp : k = p
      · rw [if_pos hkp, if_neg (fun h : p = q => hk (hkp.trans h)), if_pos hkp]
      · rw [if_neg hkp, ih hnd.2, if_neg hkp]

theorem gridErase_keys_nodup {g : Grid} (hnd : (g.map Prod.fst).Nodup) (q : GridPos) :
    ((gridErase g q).map Prod.fst).Nodup :=
  hnd.sublist (List.Sublist.map _ (gridErase_sublist g q))

theorem gridFind_foldl_erase {ks : List GridPos} :
    ∀ {g : Grid}, (g.map Prod.fst).Nodup → ∀ p : GridPos,
      gridFind (ks.foldl gridErase g) p = if p ∈ ks then none else gridFind g p := by
  induction ks with
  | nil => intro g hnd p; simp
  | cons q qs ih =>
    intro g hnd p
    rw [List.foldl_cons, ih (gridErase_keys_nodup hnd q) p]
    by_cases hqs : p ∈ qs
    · rw [if_pos hqs, if_pos (List.mem_cons_of_mem _ hqs)]
    · rw [if_neg hqs, gridFind_erase hnd q p]
      by_cases hpq : p = q
      · rw [if_pos hpq, if_pos (hpq ▸ List.mem_cons_self _ _)]
      · rw [if_neg hpq, if_neg (by simp [hpq, hqs])]

theorem boundary_row_keys_mem (fl : FloorLayout) (p : GridPos) :
    (p ∈ (List.range fl.cols.toNat).map
        (fun (col : Nat) => (⟨fl.rows - 1, (col : Int)⟩ : GridPos))) ↔
      (p.row = fl.rows - 1 ∧ 0 ≤ p.col ∧ p.col < fl.cols) := by
  rw [List.mem_map]
  constructor
  · rintro ⟨col, hcol, rfl⟩
    rw [List.mem_range] at hcol
    refine ⟨rfl, ?_, ?_⟩ <;> simp only [] <;> omega
  · rintro ⟨h1, h2, h3⟩
    refine ⟨p.col.toNat, ?_, ?_⟩
    · rw [List.mem_range]; omega
    · obtain ⟨prow, pcol⟩ := p
      simp only at h1 h2 h3 ⊢
      rw [h1]
      congr 1
      omega

theorem boundary_col_keys_mem (fl : FloorLayout) (p : GridPos) :
    (p ∈ (List.range fl.rows.toNat).map
        (fun (row : Nat) => (⟨(row : Int), fl.cols - 1⟩ : GridPos))) ↔
      (p.col = fl.cols - 1 ∧ 0 ≤ p.row ∧ p.row < fl.rows) := by
  rw [List.mem_map]
  constructor
  · rintro ⟨row, hrow, rfl⟩
    rw [List.mem_range] at hrow
    refine ⟨rfl, ?_, ?_⟩ <;> simp only [] <;> omega
  · rintro ⟨h1, h2, h3⟩
    refine ⟨p.row.toNat, ?_, ?_⟩
    · rw [List.mem_range]; omega
    · obtain ⟨prow, pcol⟩ := p
      simp only at h1 h2 h3 ⊢
      rw [h1]
      congr 1
      omega

/-- C3: remove_row and remove_column refuse and change nothing when the
extent is at most 1 or any boundary cell is occupied; with an empty
boundary (and a well-formed grid dict) they succeed, decrement the extent,
delete exactly the boundary cells, and drop exactly the connections with an
endpoint at or beyond the removed index. -/
theorem c3_shrink_guard (fl : FloorLayout) :
    (fl.rows ≤ 1 → fl.remove_row = (false, fl)) ∧
    ((∃ col : Nat, col ∈ List.range fl.cols.toNat ∧
        (gridGet fl.grid ⟨fl.rows - 1, (col : Int)⟩).isSome) →
      fl.remove_row = (false, fl)) ∧
    (1 < fl.rows →
      (∀ col : Nat, col ∈ List.range fl.cols.toNat →
        gridGet fl.grid ⟨fl.rows - 1, (col : Int)⟩ = none) →
      (fl.grid.map Prod.fst).Nodup →
      (fl.remove_row).1 = true ∧
      (fl.remove_row).2.rows = fl.rows - 1 ∧
      (fl.remove_row).2.cols = fl.cols ∧
      (∀ p : GridPos, gridFind (fl.remove_row).2.grid p =
        if p.row = fl.rows - 1 ∧ 0 ≤ p.col ∧ p.col < fl.cols then none
        else gridFind fl.grid p) ∧
      (∀ c ∈ (fl.remove_row).2.connections,
        c ∈ fl.connections ∧ c.from_pos.row ≠ fl.rows - 1 ∧ c.to_pos.row ≠ fl.rows - 1) ∧
      (∀ c ∈ fl.connections, c.from_pos.row < fl.rows - 1 → c.to_pos.row < fl.rows - 1 →
        c ∈ (fl.remove_row).2.connections)) ∧
    (fl.cols ≤ 1 → fl.remove_column = (false, fl)) ∧
    ((∃ row : Nat, row ∈ List.range fl.rows.toNat ∧
        (gridGet fl.grid ⟨(row : Int), fl.cols - 1⟩).isSome) →
      fl.remove_column = (false, fl)) ∧
    (1 < fl.cols →
      (∀ row : Nat, row ∈ List.range fl.rows.toNat →
        gridGet fl.grid ⟨(row : Int), fl.cols - 1⟩ = none) →
      (fl.grid.map Prod.fst).Nodup →
      (fl.remove_column).1 = true ∧
      (fl.remove_column).2.cols = fl.cols - 1 ∧
      (fl.remove_column).2.rows = fl.rows ∧
      (∀ p : GridPos, gridFind (fl.remove_column).2.grid p =
        if p.col = fl.cols - 1 ∧ 0 ≤ p.row ∧ p.row < fl.rows then none
        else gridFind fl.grid p) ∧
      (∀ c ∈ (fl.remove_column).2.connections,
        c ∈ fl.connections ∧ c.from_pos.col ≠ fl.cols - 1 ∧ c.to_pos.col ≠ fl.cols - 1) ∧
      (∀ c ∈ fl.connections, c.from_pos.col < fl.cols - 1 → c.to_pos.col < fl.cols - 1 →
        c ∈ (fl.remove_column).2.connections)) := by
  refine ⟨?_, ?_, ?_, ?_, ?_, ?_⟩
  · intro h
    unfold FloorLayout.remove_row
    rw [if_pos h]
  · intro h
    unfold FloorLayout.remove_row
    by_cases h1 : fl.rows ≤ 1
    · rw [if_pos h1]
    · rw [if_neg h1, if_pos (List.any_eq_true.mpr h)]
  · intro h1 h2 hnd
    unfold FloorLayout.remove_row
    rw [if_neg (by omega), if_neg (by
      rw [Bool.not_eq_true, List.any_eq_false]
      intro col hcol
      rw [h2 col hcol]
      simp)]
    refine ⟨rfl, rfl, rfl, ?_, ?_, ?_⟩
    · intro p
      dsimp only
      rw [← List.foldl_map (fun (col : Nat) => (⟨fl.rows - 1, (col : Int)⟩ : GridPos)) gridErase,
        gridFind_foldl_erase hnd p]
      by_cases hmem : p ∈ (List.range fl.cols.toNat).map
          (fun (col : Nat) => (⟨fl.rows - 1, (col : Int)⟩ : GridPos))
      · rw [if_pos hmem, if_pos ((boundary_row_keys_mem fl p).mp hmem)]
      · rw [if_neg hmem, if_neg (fun hc => hmem ((boundary_row_keys_mem fl p).mpr hc))]
    · intro c hc
      dsimp only at hc
      have := List.mem_filter.mp hc
      have hd := of_decide_eq_true this.2
      exact ⟨this.1, by omega, by omega⟩
    · intro c hc h3 h4
      dsimp only
      exact List.mem_filter.mpr ⟨hc, decide_eq_true ⟨h3, h4⟩⟩
  · intro h
    unfold FloorLayout.remove_column
    rw [if_pos h]
  · intro h
    unfold FloorLayout.remove_column
    by_cases h1 : fl.cols ≤ 1
    · rw [if_pos h1]
    · rw [if_neg h1, if_pos (List.any_eq_true.mpr h)]
  · intro h1 h2 hnd
    unfold FloorLayout.remove_column
    rw [if_neg (by omega), if_neg (by
      rw [Bool.not_eq_true, List.any_eq_false]
      intro row hrow
      rw [h2 row hrow]
      simp)]
    refine ⟨rfl, rfl, rfl, ?_, ?_, ?_⟩
    · intro p
      dsimp only
      rw [← List.foldl_map (fun (row : Nat) => (⟨(row : Int), fl.cols - 1⟩ : GridPos)) gridErase,
        gridFind_foldl_erase hnd p]
      by_cases hmem : p ∈ (List.range fl.rows.toNat).map
          (fun (row : Nat) => (⟨(row : Int), fl.cols - 1⟩ : GridPos))
      · rw [if_pos hmem, if_pos ((boundary_col_keys_mem fl p).mp hmem)]
      · rw [if_neg hmem, if_neg (fun hc => hmem ((boundary_col_keys_mem fl p).mpr hc))]
    · intro c hc
      dsimp only at hc
      have := List.mem_filter.mp hc
      have hd := of_decide_eq_true this.2
      exact ⟨this.1, by omega, by omega⟩
    · intro c hc h3 h4
      dsimp only
      exact List.mem_filter.mpr ⟨hc, decide_eq_true ⟨h3, h4⟩⟩

/-- Witness for C3: on a 2 by 2 layout with one room in the top row and a
top-row to bottom-row door, remove_row succeeds, shrinks to 1 row and
prunes the connection; after occupying the bottom row, remove_row fails
and leaves the layout untouched. -/
theorem c3_witness :
    ((((FloorLayout.init 2 2).place_room ⟨0, 0⟩ (some 1)).set_connection
        ⟨0, 0⟩ ⟨1, 0⟩ "top").remove_row).1 = true ∧
    ((((FloorLayout.init 2 2).place_room ⟨0, 0⟩ (some 1)).set_connection
        ⟨0, 0⟩ ⟨1, 0⟩ "top").remove_row).2.rows = 1 ∧
    ((((FloorLayout.init 2 2).place_room ⟨1, 0⟩ (some 1)).remove_row) =
      (false, (FloorLayout.init 2 2).place_room ⟨1, 0⟩ (some 1))) := by
  have h := c3_shrink_guard
    (((FloorLayout.init 2 2).place_room ⟨0, 0⟩ (some 1)).set_connection ⟨0, 0⟩ ⟨1, 0⟩ "top")
  have h2 := (c3_shrink_guard ((FloorLayout.init 2 2).place_room ⟨1, 0⟩ (some 1))).2.1
  refine ⟨?_, ?_, ?_⟩
  · exact (h.2.2.1 (by decide) (by decide) (by decide)).1
  · exact (h.2.2.1 (by decide) (by decide) (by decide)).2.1
  · exact h2 ⟨0, by decide, by decide⟩

theorem renumber_positions (l : List LayoutEntry) :
    (renumber l).map (fun e => e.position) =
      (List.range l.length).map (fun (i : Nat) => (i : Int)) := by
  unfold renumber
  rw [List.map_map, ← List.enum_map_fst l, List.map_map]
  rfl

theorem renumber_length (l : List LayoutEntry) : (renumber l).length = l.length := by
  simp [renumber]

theorem resequence_renumber_decomp (l : List LayoutEntry) :
    ∃ mid : List LayoutEntry, mid.Perm l ∧
      List.Pairwise (fun a b => a.position ≤ b.position) mid ∧
      resequence l = renumber mid := by
  refine ⟨l.mergeSort (fun a b => decide (a.position ≤ b.position)), List.mergeSort_perm l _,
    ?_, rfl⟩
  have h := @List.sorted_mergeSort LayoutEntry
    (fun a b : LayoutEntry => decide (a.position ≤ b.position))
    (fun a b c hab hbc =>
      decide_eq_true (le_trans (of_decide_eq_true hab) (of_decide_eq_true hbc)))
    (fun a b => by
      rcases Int.le_total a.position b.position with h | h <;> simp [h])
    l
  exact h.imp (fun hab => of_decide_eq_true hab)

theorem resequence_positions (l : List LayoutEntry) :
    (resequence l).map (fun e => e.position) =
      (List.range (resequence l).length).map (fun (i : Nat) => (i : Int)) := by
  obtain ⟨mid, hperm, _, heq⟩ := resequence_renumber_decomp l
  rw [heq, renumber_positions, renumber_length]

/-- The order notion of the claim, for layouts whose room ids are distinct:
later entries of the new layout must have previous positions (looked up by
room id in the old layout) at least as large as earlier entries. -/
def keptOrderByPrevPos (before after : List LayoutEntry) : Prop :=
  List.Pairwise (fun a b =>
    ((before.find? (fun e => e.room_id = a.room_id)).map (fun e => e.position)).getD 0 ≤
    ((before.find? (fun e => e.room_id = b.room_id)).map (fun e => e.position)).getD 0) after

instance (before after : List LayoutEntry) : Decidable (keptOrderByPrevPos before after) := by
  unfold keptOrderByPrevPos
  infer_instance

/-- C6 counterexample: starting from rooms 1 and 2 laid out in order,
move_in_layout 0 1 reorders the entries, so the surviving entries do not
keep their relative order by previous position. -/
theorem c6_counterexample :
    ((((((Level.init.add_room (Room.init 1 10 8)).2.add_room
        (Room.init 2 10 8)).2.add_to_layout 1).2.add_to_layout 2).2).layout.map
      (fun e => (e.room_id, e.position)) = [(1, 0), (2, 1)]) ∧
    (((((((Level.init.add_room (Room.init 1 10 8)).2.add_room
        (Room.init 2 10 8)).2.add_to_layout 1).2.add_to_layout 2).2).move_in_layout 0 1).layout.map
      (fun e => (e.room_id, e.position)) = [(2, 0), (1, 1)]) ∧
    ¬ keptOrderByPrevPos
      (((((Level.init.add_room (Room.init 1 10 8)).2.add_room
        (Room.init 2 10 8)).2.add_to_layout 1).2.add_to_layout 2).2).layout
      ((((((Level.init.add_room (Room.init 1 10 8)).2.add_room
        (Room.init 2 10 8)).2.add_to_layout 1).2.add_to_layout 2).2).move_in_layout 0 1).layout := by
  refine ⟨by decide, by decide, by decide⟩

/-- C6 amended: after remove_from_layout or remove_room the position values
are exactly 0..n-1 in list order and the survivors are sorted by previous
position; move_in_layout with both indices in bounds also renumbers the
positions to exactly 0..n-1, but relocates the moved entry, and with either
index out of bounds it leaves the layout unchanged. -/
theorem c6_layout_resequencing_amended (lvl : Level) (p rid oldp newp : Int) :
    ((lvl.remove_from_layout p).layout.map (fun e => e.position) =
      (List.range (lvl.remove_from_layout p).layout.length).map (fun (i : Nat) => (i : Int))) ∧
    ((lvl.remove_room rid).layout.map (fun e => e.position) =
      (List.range (lvl.remove_room rid).layout.length).map (fun (i : Nat) => (i : Int))) ∧
    (0 ≤ oldp → oldp < (lvl.layout.length : Int) → 0 ≤ newp → newp < (lvl.layout.length : Int) →
      (lvl.move_in_layout oldp newp).layout.map (fun e => e.position) =
        (List.range (lvl.move_in_layout oldp newp).layout.length).map (fun (i : Nat) => (i : Int))) ∧
    ((oldp < 0 ∨ (lvl.layout.length : Int) ≤ oldp ∨ newp < 0 ∨ (lvl.layout.length : Int) ≤ newp) →
      (lvl.move_in_layout oldp newp).layout = lvl.layout) ∧
    (∃ mid : List LayoutEntry,
      mid.Perm (lvl.layout.filter (fun le => decide (le.position ≠ p))) ∧
      List.Pairwise (fun a b => a.position ≤ b.position) mid ∧
      (lvl.remove_from_layout p).layout = renumber mid) ∧
    (∃ mid : List LayoutEntry,
      mid.Perm (lvl.layout.filter (fun le => decide (le.room_id ≠ rid))) ∧
      List.Pairwise (fun a b => a.position ≤ b.position) mid ∧
      (lvl.remove_room rid).layout = renumber mid) := by
  refine ⟨?_, ?_, ?_, ?_, ?_, ?_⟩
  · exact resequence_positions _
  · exact resequence_positions _
  · intro h1 h2 h3 h4
    unfold Level.move_in_layout
    rw [if_neg (by omega), if_neg (by omega)]
    dsimp only
    rw [renumber_positions, renumber_length]
  · intro h
    unfold Level.move_in_layout
    by_cases h1 : oldp < 0 ∨ (lvl.layout.length : Int) ≤ oldp
    · rw [if_pos h1]
    · rw [if_neg h1, if_pos (by omega)]
  · obtain ⟨mid, hperm, hsorted, heq⟩ :=
      resequence_renumber_decomp (lvl.layout.filter (fun le => decide (le.position ≠ p)))
    exact ⟨mid, hperm, hsorted, heq⟩
  · obtain ⟨mid, hperm, hsorted, heq⟩ :=
      resequence_renumber_decomp (lvl.layout.filter (fun le => decide (le.room_id ≠ rid)))
    exact ⟨mid, hperm, hsorted, heq⟩

/-- Witness for C6 amended at a concrete two-entry layout. -/
theorem c6_amended_witness :
    ((((((Level.init.add_room (Room.init 1 10 8)).2.add_room
        (Room.init 2 10 8)).2.add_to_layout 1).2.add_to_layout 2).2).move_in_layout 0 1).layout.map
      (fun e => e.position) =
      (List.range 2).map (fun (i : Nat) => (i : Int)) ∧
    ((((((Level.init.add_room (Room.init 1 10 8)).2.add_room
        (Room.init 2 10 8)).2.add_to_layout 1).2.add_to_layout 2).2).move_in_layout 5 0).layout =
      (((((Level.init.add_room (Room.init 1 10 8)).2.add_room
        (Room.init 2 10 8)).2.add_to_layout 1).2.add_to_layout 2).2).layout := by
  have h := c6_layout_resequencing_amended
    (((((Level.init.add_room (Room.init 1 10 8)).2.add_room
      (Room.init 2 10 8)).2.add_to_layout 1).2.add_to_layout 2).2) 0 0 0 1
  have h2 := c6_layout_resequencing_amended
    (((((Level.init.add_room (Room.init 1 10 8)).2.add_room
      (Room.init 2 10 8)).2.add_to_layout 1).2.add_to_layout 2).2) 0 0 5 0
  constructor
  · have := h.2.2.1 (by decide) (by decide) (by decide) (by decide)
    rw [this]
    rfl
  · exact h2.2.2.2.1 (by decide)

/-- The number of Spawn tiles across all room interiors. -/
def Level.spawnCount (lvl : Level) : Nat :=
  (lvl.rooms.map (fun room =>
    (room.interior.map (fun row => row.countP (fun t => decide (t = TileType.SPAWN)))).sum)).sum

theorem enumFrom_spawn_filterMap_length (l : List Int) (g : Nat → String) :
    ∀ n : Nat, ((List.enumFrom n l).filterMap (fun xt =>
        if xt.2 = TileType.SPAWN then some (g xt.1) else none)).length =
      l.countP (fun t => decide (t = TileType.SPAWN)) := by
  induction l with
  | nil => intro n; rfl
  | cons a l ih =>
    intro n
    rw [List.enumFrom_cons, List.filterMap_cons, List.countP_cons]
    by_cases ha : a = TileType.SPAWN
    · simp [ha, ih (n + 1)]
    · simp [ha, ih (n + 1)]

theorem roomSpawnLocs_length (room : Room) :
    (roomSpawnLocs room).length =
      (room.interior.map (fun row => row.countP (fun t => decide (t = TileType.SPAWN)))).sum := by
  unfold roomSpawnLocs
  rw [List.length_flatMap]
  congr 1
  rw [List.enum_eq_enumFrom]
  generalize 0 = n
  induction room.interior generalizing n with
  | nil => rfl
  | cons row rest ih =>
    rw [List.enumFrom_cons, List.map_cons, List.map_cons]
    congr 1
    · simp only [Function.comp_apply]
      rw [List.enum_eq_enumFrom]
      exact enumFrom_spawn_filterMap_length row (fun x => spawnLocString room.id x n) 0
    · exact ih (n + 1)

theorem spawnLocs_length (lvl : Level) : lvl.spawnLocs.length = lvl.spawnCount := by
  unfold Level.spawnLocs Level.spawnCount
  rw [List.length_flatMap]
  have hfun : List.length ∘ roomSpawnLocs = (fun room : Room =>
      (room.interior.map (fun row => row.countP (fun t => decide (t = TileType.SPAWN)))).sum) := by
    funext room
    simpa using roomSpawnLocs_length room
  rw [hfun]

theorem str_head_append {c : Char} (p x : String) (hp : p.data.head? = some c) :
    (p ++ x).data.head? = some c := by
  rw [String.data_append]
  cases hd : p.data with
  | nil => rw [hd] at hp; exact absurd hp (by simp)
  | cons a t =>
    rw [hd] at hp
    simpa using hp

theorem multiSpawnMsg_head (n : Nat) (locs : List String) :
    (multiSpawnMsg n locs).data.head? = some 'M' := by
  unfold multiSpawnMsg
  exact str_head_append _ _ (str_head_append _ _ (str_head_append _ _ rfl))

/-- Every validate message either starts with one of the three non-spawn
initials or belongs to the spawn segment. -/
theorem validate_nonspawn_heads (lvl : Level) (msg : String) (hmem : msg ∈ lvl.validate) :
    msg.data.head? = some 'D' ∨ msg.data.head? = some 'R' ∨ msg.data.head? = some 'L' ∨
    msg ∈ (match lvl.spawnLocs with
      | [] => [noSpawnMsg]
      | [_] => []
      | locs => [multiSpawnMsg locs.length locs]) := by
  unfold Level.validate at hmem
  rw [List.mem_append] at hmem
  rcases hmem with hmem | hspawn
  · rw [List.mem_append] at hmem
    rcases hmem with hmem | hpos
    · rw [List.mem_append] at hmem
      rcases hmem with hmem | href
      · rw [List.mem_append] at hmem
        rcases hmem with hdup | hdim
        · left
          by_cases hnd : (lvl.rooms.map (fun r => r.id)).Nodup
          · rw [if_pos hnd] at hdup
            exact absurd hdup (by simp)
          · rw [if_neg hnd] at hdup
            rw [List.mem_singleton.mp hdup]
            rfl
        · right; left
          obtain ⟨room, -, hmem'⟩ := List.mem_flatMap.mp hdim
          unfold roomDimErrors at hmem'
          rw [List.mem_append] at hmem'
          rcases hmem' with h | h
          · by_cases hc : (room.interior.length : Int) ≠ room.height - 2
            · rw [if_pos hc] at h
              rw [List.mem_singleton.mp h]
              exact str_head_append _ _ (str_head_append _ _ rfl)
            · rw [if_neg hc] at h
              exact absurd h (by simp)
          · by_cases hc : room.interior.any (fun row => decide ((row.length : Int) ≠ room.width - 2))
            · rw [if_pos hc] at h
              rw [List.mem_singleton.mp h]
              exact str_head_append _ _ (str_head_append _ _ rfl)
            · rw [if_neg hc] at h
              exact absurd h (by simp)
      · right; right; left
        obtain ⟨e, -, he⟩ := List.mem_filterMap.mp href
        by_cases hex : lvl.rooms.any (fun r => r.id = e.room_id)
        · rw [if_pos hex] at he
          exact absurd he (by simp)
        · rw [if_neg hex] at he
          have : msg = "Layout references non-existent room " ++ pyIntStr e.room_id := by
            injection he with h
            exact h.symm
          rw [this]
          exact str_head_append _ _ rfl
    · right; right; left
      by_cases hc : (lvl.layout.map (fun le => le.position)).mergeSort (fun a b => decide (a ≤ b)) =
          (List.range lvl.layout.length).map (fun i => (i : Int))
      · rw [if_pos hc] at hpos
        exact absurd hpos (by simp)
      · rw [if_neg hc] at hpos
        rw [List.mem_singleton.mp hpos]
        rfl
  · right; right; right
    exact hspawn

theorem spawnLoc_mem (lvl : Level) (room : Room) (hroom : room ∈ lvl.rooms)
    (x y : Nat) (row : List Int) (hrow : room.interior[y]? = some row)
    (htile : row[x]? = some TileType.SPAWN) :
    spawnLocString room.id x y ∈ lvl.spawnLocs := by
  unfold Level.spawnLocs
  rw [List.mem_flatMap]
  refine ⟨room, hroom, ?_⟩
  unfold roomSpawnLocs
  rw [List.mem_flatMap]
  refine ⟨(y, row), List.mem_enum_iff_getElem?.mpr hrow, ?_⟩
  rw [List.mem_filterMap]
  exact ⟨(x, TileType.SPAWN), List.mem_enum_iff_getElem?.mpr htile, by simp⟩

/-- C5: the spawn-location list counts the Spawn tiles exactly; with zero
Spawn tiles validate reports the no-spawn error, with exactly one it
reports neither spawn message, and with two or more it reports the
multiple-spawn message built from the location list, which carries an
entry for every occurrence of the Spawn tile. -/
theorem c5_spawn_validation (lvl : Level) :
    (lvl.spawnLocs.length = lvl.spawnCount) ∧
    (lvl.spawnCount = 0 → noSpawnMsg ∈ lvl.validate) ∧
    (lvl.spawnCount = 1 → noSpawnMsg ∉ lvl.validate ∧
      ∀ (n : Nat) (locs : List String), multiSpawnMsg n locs ∉ lvl.validate) ∧
    (2 ≤ lvl.spawnCount →
      multiSpawnMsg lvl.spawnLocs.length lvl.spawnLocs ∈ lvl.validate ∧
      (∀ room ∈ lvl.rooms, ∀ (x y : Nat) (row : List Int),
        room.interior[y]? = some row → row[x]? = some TileType.SPAWN →
        spawnLocString room.id x y ∈ lvl.spawnLocs)) := by
  refine ⟨spawnLocs_length lvl, ?_, ?_, ?_⟩
  · intro h0
    have hnil : lvl.spawnLocs = [] :=
      List.length_eq_zero.mp ((spawnLocs_length lvl).trans h0)
    unfold Level.validate
    rw [hnil]
    simp
  · intro h1
    have hlen : lvl.spawnLocs.length = 1 := (spawnLocs_length lvl).trans h1
    obtain ⟨loc, hloc⟩ := List.length_eq_one.mp hlen
    constructor
    · intro hmem
      rcases validate_nonspawn_heads lvl _ hmem with h | h | h | h
      · exact absurd h (by decide)
      · exact absurd h (by decide)
      · exact absurd h (by decide)
      · rw [hloc] at h
        exact absurd h (by simp)
    · intro n locs hmem
      rcases validate_nonspawn_heads lvl _ hmem with h | h | h | h
      · rw [multiSpawnMsg_head] at h
        exact absurd h (by decide)
      · rw [multiSpawnMsg_head] at h
        exact absurd h (by decide)
      · rw [multiSpawnMsg_head] at h
        exact absurd h (by decide)
      · rw [hloc] at h
        exact absurd h (by simp)
  · intro h2
    have hlen : 2 ≤ lvl.spawnLocs.length := by
      rw [spawnLocs_length]
      exact h2
    constructor
    · match hl : lvl.spawnLocs with
      | [] => rw [hl] at hlen; exact absurd hlen (by simp)
      | [a] => rw [hl] at hlen; exact absurd hlen (by simp)
      | a :: b :: rest =>
        unfold Level.validate
        rw [hl]
        simp
    · intro room hroom x y row hrow htile
      exact spawnLoc_mem lvl room hroom x y row hrow htile

/-- A level with exactly one Spawn tile. -/
def c5LevelOne : Level :=
  (Level.init.add_room ((Room.init 1 4 4).set_tile 0 0 TileType.SPAWN)).2

/-- A level with two Spawn tiles in different rooms. -/
def c5LevelTwo : Level :=
  ((Level.init.add_room ((Room.init 1 4 4).set_tile 0 0 TileType.SPAWN)).2.add_room
    ((Room.init 2 4 4).set_tile 1 0 TileType.SPAWN)).2

/-- Witness for C5 at concrete levels with zero, one and two spawns. -/
theorem c5_witness :
    noSpawnMsg ∈ Level.init.validate ∧
    noSpawnMsg ∉ c5LevelOne.validate ∧
    multiSpawnMsg c5LevelTwo.spawnLocs.length c5LevelTwo.spawnLocs ∈ c5LevelTwo.validate ∧
    spawnLocString 2 1 0 ∈ c5LevelTwo.spawnLocs :=
  ⟨(c5_spawn_validation Level.init).2.1 (by decide),
   ((c5_spawn_validation c5LevelOne).2.2.1 (by decide)).1,
   ((c5_spawn_validation c5LevelTwo).2.2.2 (by decide)).1,
   ((c5_spawn_validation c5LevelTwo).2.2.2 (by decide)).2
     ((Room.init 2 4 4).set_tile 1 0 TileType.SPAWN) (by decide) 1 0 [0, 8]
     (by decide) (by decide)⟩

theorem gridFind_set (g : Grid) (q p : GridPos) (v : Option Int) :
    gridFind (gridSet g q v) p = if q = p then some v else gridFind g p := by
  induction g with
  | nil => simp [gridSet, gridFind]
  | cons e rest ih =>
    obtain ⟨k, w⟩ := e
    unfold gridSet
    by_cases hk : k = q
    · rw [if_pos hk]
      unfold gridFind
      by_cases hkp : k = p
      · rw [if_pos hkp, if_pos (hk ▸ hkp)]
      · rw [if_neg hkp, if_neg (fun h : q = p => hkp (hk.trans h)), if_neg hkp]
    · rw [if_neg hk]
      unfold gridFind
      by_cases hkp : k = p
      · rw [if_pos hkp, if_neg (fun h : q = p => hk (hkp.trans h.symm)), if_pos hkp]
      · rw [if_neg hkp, if_neg hkp, ih]

theorem from_dict_fold_find (d : FloorLayoutDoc) (ps : List (Nat × Nat)) :
    ∀ (g : Grid) (p : GridPos),
      gridFind (ps.foldl (fun g rc =>
        gridSet g ⟨((rc.1 : Nat) : Int), ((rc.2 : Nat) : Int)⟩
          ((d.grid.getD rc.1 []).getD rc.2 none)) g) p =
      match ps.find? (fun rc =>
          decide ((⟨((rc.1 : Nat) : Int), ((rc.2 : Nat) : Int)⟩ : GridPos) = p)) with
      | some rc => some ((d.grid.getD rc.1 []).getD rc.2 none)
      | none => gridFind g p := by
  induction ps with
  | nil => intro g p; rfl
  | cons q qs ih =>
    intro g p
    rw [List.foldl_cons, ih, List.find?_cons]
    by_cases hq : (⟨((q.1 : Nat) : Int), ((q.2 : Nat) : Int)⟩ : GridPos) = p
    · simp only [decide_eq_true hq]
      cases hfind : qs.find? (fun rc =>
          decide ((⟨((rc.1 : Nat) : Int), ((rc.2 : Nat) : Int)⟩ : GridPos) = p)) with
      | some a =>
        have hfa := List.find?_some hfind
        have ha : (⟨((a.1 : Nat) : Int), ((a.2 : Nat) : Int)⟩ : GridPos) = p :=
          of_decide_eq_true (by simpa using hfa)
        have hak : (⟨((a.1 : Nat) : Int), ((a.2 : Nat) : Int)⟩ : GridPos) =
            ⟨((q.1 : Nat) : Int), ((q.2 : Nat) : Int)⟩ := ha.trans hq.symm
        simp only [GridPos.mk.injEq] at hak
        have h1 : a.1 = q.1 := by omega
        have h2 : a.2 = q.2 := by omega
        dsimp only
        rw [h1, h2]
      | none =>
        dsimp only
        rw [gridFind_set, if_pos hq]
    · simp only [decide_eq_false hq]
      cases hfind : qs.find? (fun rc =>
          decide ((⟨((rc.1 : Nat) : Int), ((rc.2 : Nat) : Int)⟩ : GridPos) = p)) with
      | some a => rfl
      | none =>
        dsimp only
        rw [gridFind_set, if_neg hq]

theorem rowMajor_mem (rows cols : Nat) (rc : Nat × Nat) :
    rc ∈ rowMajor rows cols ↔ rc.1 < rows ∧ rc.2 < cols := by
  obtain ⟨r, c⟩ := rc
  unfold rowMajor
  rw [List.mem_flatMap]
  constructor
  · rintro ⟨r', hr', hmem⟩
    rw [List.mem_range] at hr'
    obtain ⟨c', hc', heq⟩ := List.mem_map.mp hmem
    rw [List.mem_range] at hc'
    simp only [Prod.mk.injEq] at heq
    exact ⟨heq.1 ▸ hr', heq.2 ▸ hc'⟩
  · rintro ⟨h1, h2⟩
    exact ⟨r, List.mem_range.mpr h1, List.mem_map.mpr ⟨c, List.mem_range.mpr h2, rfl⟩⟩

theorem init_grid_keys (rows cols : Int) (e : GridPos × Option Int)
    (he : e ∈ (FloorLayout.init rows cols).grid) :
    inExtent (FloorLayout.init rows cols) e.1 := by
  unfold FloorLayout.init at he ⊢
  obtain ⟨r, hr, hmem⟩ := List.mem_flatMap.mp he
  rw [List.mem_range] at hr
  obtain ⟨c, hc, heq⟩ := List.mem_map.mp hmem
  rw [List.mem_range] at hc
  unfold inExtent
  rw [← heq]
  refine ⟨?_, ?_, ?_, ?_⟩ <;> simp only [] <;> omega

theorem to_dict_grid_cell (fl : FloorLayout) (r c : Nat)
    (hr : r < fl.rows.toNat) (hc : c < fl.cols.toNat) :
    ((fl.to_dict.grid.getD r []).getD c none) = gridGet fl.grid ⟨(r : Int), (c : Int)⟩ := by
  unfold FloorLayout.to_dict
  dsimp only
  have h1 : ∀ (f : Nat → List (Option Int)), ((List.range fl.rows.toNat).map f).getD r [] = f r := by
    intro f
    rw [List.getD_eq_getElem?_getD, List.getElem?_map, List.getElem?_range hr]
    rfl
  rw [h1]
  rw [List.getD_eq_getElem?_getD, List.getElem?_map, List.getElem?_range hc]
  rfl

/-- Round-trip of one floor layout through to_dict and from_dict: extent
and connections are identical and every cell reads back the same, provided
the grid keys lie inside the extent (true of every grid the editor
builds). -/
theorem floorlayout_roundtrip (fl : FloorLayout) (hext : ∀ e ∈ fl.grid, inExtent fl e.1) :
    (FloorLayout.from_dict fl.to_dict).rows = fl.rows ∧
    (FloorLayout.from_dict fl.to_dict).cols = fl.cols ∧
    (FloorLayout.from_dict fl.to_dict).connections = fl.connections ∧
    (∀ p : GridPos, (FloorLayout.from_dict fl.to_dict).get_room_at p = fl.get_room_at p) := by
  refine ⟨rfl, rfl, rfl, ?_⟩
  intro p
  unfold FloorLayout.get_room_at gridGet
  have hfold : gridFind (FloorLayout.from_dict fl.to_dict).grid p =
      match (rowMajor fl.to_dict.rows.toNat fl.to_dict.cols.toNat).find?
          (fun rc => decide ((⟨((rc.1 : Nat) : Int), ((rc.2 : Nat) : Int)⟩ : GridPos) = p)) with
      | some rc => some ((fl.to_dict.grid.getD rc.1 []).getD rc.2 none)
      | none => gridFind (FloorLayout.init fl.to_dict.rows fl.to_dict.cols).grid p := by
    unfold FloorLayout.from_dict
    dsimp only
    exact from_dict_fold_find fl.to_dict
      (rowMajor fl.to_dict.rows.toNat fl.to_dict.cols.toNat)
      (FloorLayout.init fl.to_dict.rows fl.to_dict.cols).grid p
  rw [hfold]
  by_cases hin : inExtent fl p
  · have hmem : (p.row.toNat, p.col.toNat) ∈
        rowMajor fl.to_dict.rows.toNat fl.to_dict.cols.toNat := by
      rw [rowMajor_mem]
      unfold inExtent at hin
      unfold FloorLayout.to_dict
      dsimp only
      omega
    have hkey : (⟨((p.row.toNat : Nat) : Int), ((p.col.toNat : Nat) : Int)⟩ : GridPos) = p := by
      unfold inExtent at hin
      obtain ⟨prow, pcol⟩ := p
      simp only [GridPos.mk.injEq]
      dsimp only at hin
      omega
    have hsome : ((rowMajor fl.to_dict.rows.toNat fl.to_dict.cols.toNat).find?
        (fun rc => decide ((⟨((rc.1 : Nat) : Int), ((rc.2 : Nat) : Int)⟩ : GridPos) = p))).isSome := by
      rw [List.find?_isSome]
      exact ⟨(p.row.toNat, p.col.toNat), hmem, decide_eq_true hkey⟩
    obtain ⟨rc, hrc⟩ := Option.isSome_iff_exists.mp hsome
    rw [hrc]
    dsimp only
    have hrckey : (⟨((rc.1 : Nat) : Int), ((rc.2 : Nat) : Int)⟩ : GridPos) = p :=
      of_decide_eq_true (by simpa using List.find?_some hrc)
    have hrcmem := (rowMajor_mem _ _ rc).mp (List.mem_of_find?_eq_some hrc)
    have hcell := to_dict_grid_cell fl rc.1 rc.2 hrcmem.1 hrcmem.2
    rw [hcell, hrckey]
    unfold gridGet
    rfl
  · have hnone : ((rowMajor fl.to_dict.rows.toNat fl.to_dict.cols.toNat).find?
        (fun rc => decide ((⟨((rc.1 : Nat) : Int), ((rc.2 : Nat) : Int)⟩ : GridPos) = p))) = none := by
      rw [List.find?_eq_none]
      intro rc hrcmem hdec
      have hkeq := of_decide_eq_true hdec
      have hb := (rowMajor_mem _ _ rc).mp hrcmem
      apply hin
      unfold inExtent
      rw [← hkeq]
      unfold FloorLayout.to_dict at hb
      dsimp only at hb
      dsimp only
      omega
    rw [hnone]
    dsimp only
    have hinitnone : gridFind (FloorLayout.init fl.to_dict.rows fl.to_dict.cols).grid p = none := by
      apply gridFind_eq_none_of_forall
      intro e he heq
      have := init_grid_keys fl.to_dict.rows fl.to_dict.cols e he
      unfold inExtent at this
      apply hin
      unfold inExtent
      rw [← heq]
      unfold FloorLayout.to_dict at this
      dsimp only at this
      exact this
    have horignone : gridFind fl.grid p = none := by
      apply gridFind_eq_none_of_forall
      intro e he heq
      exact hin (heq ▸ hext e he)
    rw [hinitnone, horignone]

theorem room_roundtrip (r : Room) : Room.from_dict (Room.to_dict r) = r := by
  cases r
  rfl

theorem forall₂_map_self {α : Type} {P : α → α → Prop} {f : α → α} :
    ∀ l : List α, (∀ x ∈ l, P (f x) x) → List.Forall₂ P (l.map f) l := by
  intro l
  induction l with
  | nil => intro _; exact List.Forall₂.nil
  | cons a t ih =>
    intro h
    exact List.Forall₂.cons (h a (List.mem_cons_self _ _))
      (ih (fun x hx => h x (List.mem_cons_of_mem _ hx)))

/-- C1: exporting a level with to_json and importing the result with
from_json reproduces the rooms list and the layout exactly, and reproduces
every floor layout up to extent, connection list and the content of every
grid cell, provided each floor layout keeps its grid keys inside its extent
(true of every layout the editor constructs). -/
theorem c1_round_trip (lvl : Level)
    (hext : ∀ fl ∈ lvl.floor_layouts, ∀ e ∈ fl.grid, inExtent fl e.1) :
    (Level.from_json (Level.to_json lvl)).rooms = lvl.rooms ∧
    (Level.from_json (Level.to_json lvl)).layout = lvl.layout ∧
    List.Forall₂ (fun fl' fl => fl'.rows = fl.rows ∧ fl'.cols = fl.cols ∧
        fl'.connections = fl.connections ∧
        (∀ p : GridPos, fl'.get_room_at p = fl.get_room_at p))
      (Level.from_json (Level.to_json lvl)).floor_layouts lvl.floor_layouts := by
  refine ⟨?_, rfl, ?_⟩
  · show (lvl.rooms.map Room.to_dict).map Room.from_dict = lvl.rooms
    rw [List.map_map]
    have : Room.from_dict ∘ Room.to_dict = id := funext (fun r => room_roundtrip r)
    rw [this, List.map_id]
  · show List.Forall₂ _ ((lvl.floor_layouts.map FloorLayout.to_dict).map FloorLayout.from_dict) _
    rw [List.map_map]
    exact forall₂_map_self lvl.floor_layouts
      (fun fl hfl => floorlayout_roundtrip fl (hext fl hfl))

/-- A small level with a room, a layout entry and a floor layout used as
the concrete round-trip witness. -/
def c1Level : Level :=
  let room := { (Room.init 1 10 8).set_tile 5 5 TileType.SEARCHABLE with
    exits := { left := none, right := some ⟨"doorway"⟩ } }
  let l1 := (Level.init.add_room room).2
  let l2 := (l1.add_to_layout 1).2
  { l2 with floor_layouts :=
      [((FloorLayout.init 2 2).place_room ⟨0, 0⟩ (some 1)).set_connection ⟨0, 0⟩ ⟨0, 1⟩ "top"] }

/-- Witness for C1 at a concrete level. -/
theorem c1_witness :
    (Level.from_json (Level.to_json c1Level)).rooms = c1Level.rooms ∧
    (Level.from_json (Level.to_json c1Level)).layout = c1Level.layout := by
  have h := c1_round_trip c1Level (by decide)
  exact ⟨h.1, h.2.1⟩

/-- The ten decimal digit characters. -/
def digitChars : List Char := ['0', '1', '2', '3', '4', '5', '6', '7', '8', '9']

theorem natDigitChars_digits : ∀ (n : Nat), ∀ c ∈ natDigitChars n, c ∈ digitChars := by
  intro n
  induction n using Nat.strong_induction_on with
  | _ n ih =>
    intro c hc
    rw [natDigitChars] at hc
    split at hc
    · next h =>
      simp only [List.mem_singleton] at hc
      subst hc
      interval_cases n <;> decide
    · next h =>
      rw [List.mem_append] at hc
      rcases hc with hc | hc
      · exact ih (n / 10) (Nat.div_lt_self (by omega) (by decide)) c hc
      · simp only [List.mem_singleton] at hc
        subst hc
        have hm : n % 10 < 10 := Nat.mod_lt _ (by decide)
        interval_cases h : n % 10 <;> decide

theorem pyIntStr_chars (i : Int) (c : Char) (hc : c ∈ (pyIntStr i).data) :
    c ∈ digitChars ∨ c = '-' := by
  unfold pyIntStr at hc
  split at hc
  · rw [String.data_append] at hc
    rw [List.mem_append] at hc
    rcases hc with hc | hc
    · right
      simpa using hc
    · exact Or.inl (natDigitChars_digits _ c hc)
  · exact Or.inl (natDigitChars_digits _ c hc)

theorem joinComma_chars : ∀ (l : List String) (c : Char), c ∈ (joinComma l).data →
    c = ',' ∨ ∃ s ∈ l, c ∈ s.data := by
  intro l
  induction l with
  | nil => intro c hc; exact absurd hc (by simp [joinComma])
  | cons s rest ih =>
    intro c hc
    cases rest with
    | nil =>
      exact Or.inr ⟨s, List.mem_singleton_self s, hc⟩
    | cons s2 rest2 =>
      unfold joinComma at hc
      rw [String.data_append, String.data_append, List.mem_append, List.mem_append] at hc
      rcases hc with (hc | hc) | hc
      · exact Or.inr ⟨s, List.mem_cons_self _ _, hc⟩
      · left
        simpa using hc
      · rcases ih c hc with h | ⟨t, ht, hct⟩
        · exact Or.inl h
        · exact Or.inr ⟨t, List.mem_cons_of_mem _ ht, hct⟩

/-- Characters of one compact interior row: brackets, commas, digits and
minus signs only — never whitespace. -/
theorem interiorRowStr_no_whitespace (row : List Int) (c : Char)
    (hc : c ∈ (interiorRowStr row).data) : c ≠ ' ' ∧ c ≠ '\n' ∧ c ≠ '\t' := by
  unfold interiorRowStr at hc
  rw [String.data_append, String.data_append, List.mem_append, List.mem_append] at hc
  rcases hc with (hc | hc) | hc
  · have : c = '[' := by simpa using hc
    subst this
    decide
  · rcases joinComma_chars _ c hc with h | ⟨s, hs, hcs⟩
    · subst h
      decide
    · obtain ⟨i, -, hi⟩ := List.mem_map.mp hs
      rcases pyIntStr_chars i c (hi ▸ hcs) with h | h
      · rcases (by simpa [digitChars] using h :
          c = '0' ∨ c = '1' ∨ c = '2' ∨ c = '3' ∨ c = '4' ∨ c = '5' ∨ c = '6' ∨ c = '7' ∨
          c = '8' ∨ c = '9') with h | h | h | h | h | h | h | h | h | h <;> subst h <;> decide
      · subst h
        decide
  · have : c = ']' := by simpa using hc
    subst this
    decide

/-- No raw newline occurs in a string. -/
def noNL (s : String) : Prop := ∀ c ∈ s.data, c ≠ '\n'

theorem noNL_append {s t : String} (hs : noNL s) (ht : noNL t) : noNL (s ++ t) := by
  intro c hc
  rw [String.data_append, List.mem_append] at hc
  rcases hc with hc | hc
  · exact hs c hc
  · exact ht c hc

theorem noNL_pyEscChar (c c' : Char) (hc : c' ∈ pyEscChar c) : c' ≠ '\n' := by
  unfold pyEscChar at hc
  split_ifs at hc with h1 h2 h3 h4 h5
  · rcases (by simpa using hc : c' = '\\' ∨ c' = '"') with rfl | rfl <;> decide
  · have : c' = '\\' := by simpa using hc
    subst this
    decide
  · rcases (by simpa using hc : c' = '\\' ∨ c' = 'n') with rfl | rfl <;> decide
  · rcases (by simpa using hc : c' = '\\' ∨ c' = 't') with rfl | rfl <;> decide
  · rcases (by simpa using hc : c' = '\\' ∨ c' = 'r') with rfl | rfl <;> decide
  · have : c' = c := by simpa using hc
    subst this
    exact h3

theorem noNL_iff_not_mem (s : String) : noNL s ↔ '\n' ∉ s.data := by
  constructor
  · intro h hm
    exact h _ hm rfl
  · intro h c hc hceq
    exact h (hceq ▸ hc)

theorem noNL_pyQuote (s : String) : noNL (pyQuote s) := by
  intro c hc
  unfold pyQuote at hc
  rcases List.mem_cons.mp hc with rfl | hc2
  · decide
  · rcases List.mem_append.mp hc2 with h3 | h3
    · obtain ⟨a, -, ha⟩ := List.mem_flatMap.mp h3
      exact noNL_pyEscChar a c ha
    · have : c = '"' := by simpa using h3
      subst this
      decide

theorem noNL_dumpsExitDoor (e : Option ExitDoor) : noNL (dumpsExitDoor e) := by
  cases e with
  | none => exact (noNL_iff_not_mem _).mpr (by decide)
  | some d =>
    exact noNL_append (noNL_append ((noNL_iff_not_mem _).mpr (by decide)) (noNL_pyQuote d.ty))
      ((noNL_iff_not_mem _).mpr (by decide))

/-- The compact exits rendering contains no newline: it is one line. -/
theorem noNL_dumpsExits (e : Exits) : noNL (dumpsExits e) := by
  unfold dumpsExits
  exact noNL_append (noNL_append (noNL_append (noNL_append
    ((noNL_iff_not_mem _).mpr (by decide)) (noNL_dumpsExitDoor e.left))
    ((noNL_iff_not_mem _).mpr (by decide))) (noNL_dumpsExitDoor e.right))
    ((noNL_iff_not_mem _).mpr (by decide))

/-- The compact theme rendering contains no newline: it is one line. -/
theorem noNL_dumpsTheme (t : Theme) : noNL (dumpsTheme t) := by
  unfold dumpsTheme
  exact noNL_append (noNL_append (noNL_append (noNL_append (noNL_append (noNL_append
    ((noNL_iff_not_mem _).mpr (by decide)) (noNL_pyQuote t.wall_color))
    ((noNL_iff_not_mem _).mpr (by decide))) (noNL_pyQuote t.floor_color))
    ((noNL_iff_not_mem _).mpr (by decide))) (noNL_pyQuote t.ceiling_color))
    ((noNL_iff_not_mem _).mpr (by decide))

theorem roomsSection_extract : ∀ (rooms : List Room) (room : Room), room ∈ rooms →
    ∃ a b : String, roomsSection rooms = a ++ roomBlock room ++ b := by
  intro rooms
  induction rooms with
  | nil => intro room h; exact absurd h (by simp)
  | cons r rest ih =>
    intro room hmem
    cases rest with
    | nil =>
      have : room = r := by simpa using hmem
      subst this
      exact ⟨"", "\n", by simp [roomsSection]⟩
    | cons r2 rest2 =>
      rcases List.mem_cons.mp hmem with rfl | hmem2
      · exact ⟨"", ",\n" ++ roomsSection (r2 :: rest2), by simp [roomsSection, String.append_assoc]⟩
      · obtain ⟨a, b, hab⟩ := ih room hmem2
        refine ⟨roomBlock r ++ ",\n" ++ a, b, ?_⟩
        show roomBlock r ++ ",\n" ++ roomsSection (r2 :: rest2) = _
        rw [hab]
        simp [String.append_assoc]

theorem roomBlock_extract (room : Room) :
    ∃ a b : String, roomBlock room =
      a ++ (",\n      \"interior\": " ++ format_interior room.interior ++
        ",\n      \"exits\": " ++ dumpsExits room.exits ++
        ",\n      \"theme\": " ++ dumpsTheme room.theme) ++ b := by
  refine ⟨"    \x7b\n" ++ "      \"id\": " ++ pyIntStr room.id ++ ",\n" ++
    "      \"width\": " ++ pyIntStr room.width ++ ",\n" ++
    "      \"height\": " ++ pyIntStr room.height, "\n" ++ "    \x7d", ?_⟩
  unfold roomBlock
  simp [String.append_assoc]

theorem to_json_str_rooms_extract (lvl : Level) (room : Room) (hmem : room ∈ lvl.rooms) :
    ∃ pre post : String, lvl.to_json_str =
      pre ++ (",\n      \"interior\": " ++ format_interior room.interior ++
        ",\n      \"exits\": " ++ dumpsExits room.exits ++
        ",\n      \"theme\": " ++ dumpsTheme room.theme) ++ post := by
  obtain ⟨a, b, hab⟩ := roomsSection_extract lvl.rooms room hmem
  obtain ⟨a2, b2, hab2⟩ := roomBlock_extract room
  refine ⟨("\x7b\n" ++ "  \"tile_types\": " ++ dumpsTileTypesInd 0 lvl.tile_types ++ ",\n" ++
    "  \"rooms\": [\n") ++ a ++ a2, b2 ++ b ++
      ("  ],\n" ++ "  \"layout\": " ++ dumpsListInd 0 (lvl.layout.map (dumpsLayoutEntryInd 1)) ++
        ",\n" ++ "  \"floor_layouts\": " ++
        dumpsListInd 0 ((lvl.floor_layouts.map FloorLayout.to_dict).map (dumpsFLInd 1)) ++
        "\n\x7d\n"), ?_⟩
  unfold Level.to_json_str
  rw [hab, hab2]
  simp [String.append_assoc]

/-- The level used to exhibit the formatting divergence: one default room. -/
def c9Level : Level := (Level.init.add_room (Room.init 1 10 8)).2

/-- C9 counterexample: the exporter output is not the spec-claimed fully
4-space pretty-printed rendering — exits and theme come out compact and the
hand-built top level uses two-space indentation. -/
theorem c9_counterexample :
    Level.to_json_str c9Level ≠ Level.to_json_str_claimed c9Level := by
  decide

/-- C9 amended: interior rows are compact bracketed comma-joined lists with
no internal whitespace; the exits and theme objects are rendered as compact
single-line JSON embedded right after their keys; tile_types, layout and
floor_layouts are rendered through the 4-space-indented serializer; the
top level is hand-built with two-space indentation. -/
theorem c9_export_formatting_amended (lvl : Level) :
    (∀ room ∈ lvl.rooms, ∀ row ∈ room.interior, ∀ c ∈ (interiorRowStr row).data,
      c ≠ ' ' ∧ c ≠ '\n' ∧ c ≠ '\t') ∧
    (∀ room ∈ lvl.rooms, noNL (dumpsExits room.exits) ∧ noNL (dumpsTheme room.theme)) ∧
    (∀ room ∈ lvl.rooms, ∃ pre post : String, lvl.to_json_str =
      pre ++ (",\n      \"interior\": " ++ format_interior room.interior ++
        ",\n      \"exits\": " ++ dumpsExits room.exits ++
        ",\n      \"theme\": " ++ dumpsTheme room.theme) ++ post) ∧
    (lvl.to_json_str =
      "\x7b\n  \"tile_types\": " ++ dumpsTileTypesInd 0 lvl.tile_types ++
      ",\n  \"rooms\": [\n" ++ roomsSection lvl.rooms ++
      "  ],\n  \"layout\": " ++ dumpsListInd 0 (lvl.layout.map (dumpsLayoutEntryInd 1)) ++
      ",\n  \"floor_layouts\": " ++
      dumpsListInd 0 ((lvl.floor_layouts.map FloorLayout.to_dict).map (dumpsFLInd 1)) ++
      "\n\x7d\n") := by
  refine ⟨?_, ?_, ?_, ?_⟩
  · intro room _ row _ c hc
    exact interiorRowStr_no_whitespace row c hc
  · intro room _
    exact ⟨noNL_dumpsExits room.exits, noNL_dumpsTheme room.theme⟩
  · intro room hmem
    exact to_json_str_rooms_extract lvl room hmem
  · unfold Level.to_json_str
    simp [String.append_assoc]

/-- Witness for C9 amended at the concrete one-room level. -/
theorem c9_amended_witness :
    (∀ c ∈ (interiorRowStr ((Room.init 1 10 8).interior.getD 0 [])).data,
      c ≠ ' ' ∧ c ≠ '\n' ∧ c ≠ '\t') ∧
    (∃ pre post : String, c9Level.to_json_str =
      pre ++ (",\n      \"interior\": " ++ format_interior (Room.init 1 10 8).interior ++
        ",\n      \"exits\": " ++ dumpsExits (Room.init 1 10 8).exits ++
        ",\n      \"theme\": " ++ dumpsTheme (Room.init 1 10 8).theme) ++ post) := by
  have h := c9_export_formatting_amended c9Level
  exact ⟨fun c hc => h.1 (Room.init 1 10 8) (by decide) _ (by decide) c hc,
    h.2.2.1 (Room.init 1 10 8) (by decide)⟩
